import Mathlib

/-!
Shallow embedding of the TripPlanner core (planner, executor, cache, rate
limiter) from `src/tripplanner/{planner.py, executor.py, cache.py,
contracts.py}`, together with proofs of the frozen claims.

Modelling conventions:
* Python floats (clock readings, TTLs, confidences, token counts) are
  modelled as exact rationals `ℚ`; all claim-relevant constants are exactly
  representable.
* The injectable monotonic clock of `cache.py` is modelled by passing the
  current clock reading `now : ℚ` explicitly to each operation that calls
  `self._clock()`.
* Python strings are Lean `String`s; Python string comparison (used by
  `sorted`) is code-point lexicographic and is embedded as the executable
  comparator `strLeB` below.
* A Python handler is a possibly stateful callable; an invocation is
  modelled as a pure function of the task and of the (1-based) attempt
  number at which the executor calls it.  Its three observable outcomes
  (raising, returning a payload that fails `StandardAgentResult`
  validation, returning a payload that parses) are the three constructors
  of `InvokeOutcome`/`HandlerResult`.
* Python `raise` of `RuntimeError`/`ValueError` is modelled with
  `Except`/`Option` results.
-/

namespace TripPlanner

/-- Agent kinds, the `Literal["geo", "weather", "poi", "transport", "synth"]`
of `contracts.PlanTask.agent`. -/
inductive Agent
  | geo
  | weather
  | poi
  | transport
  | synth
deriving DecidableEq, Repr

/-- Issue codes produced by `OrchestratorExecutor._invoke_and_evaluate`. -/
inductive Issue
  | handler_missing
  | handler_exception
  | schema_invalid
  | evidence_empty
  | confidence_low
  | consistency_invalid
deriving DecidableEq, Repr

/-- String form of an issue code as used in Python issue lists and in the
clarifying-question text. -/
def Issue.code : Issue → String
  | .handler_missing => "handler_missing"
  | .handler_exception => "handler_exception"
  | .schema_invalid => "schema_invalid"
  | .evidence_empty => "evidence_empty"
  | .confidence_low => "confidence_low"
  | .consistency_invalid => "consistency_invalid"

/-- Contracts: `GeoPoint` (fields as in `contracts.py`; latitude/longitude
and bounding box as exact rationals). -/
structure GeoPoint where
  lat : ℚ
  lon : ℚ
  bbox : List ℚ
  place_name : String
  country_code : String
deriving DecidableEq, Repr

/-- Contracts: `DateRange`; dates are modelled as day numbers. -/
structure DateRange where
  start_date : Int
  end_date : Int
deriving DecidableEq, Repr

/-- Contracts: `TripLeg`. -/
structure TripLeg where
  destination_text : String
  geo : Option GeoPoint := none
  date_range : DateRange
deriving DecidableEq, Repr

/-- Contracts: `TripSpec`.  Only the fields read by the core (the legs) are
carried; `request_context`, `budget`, `preferences` and `constraints` are
opaque to the planner and executor.  The pydantic `min_length=1` validation
on `legs` is the predicate `TripSpec.valid`. -/
structure TripSpec where
  legs : List TripLeg
deriving DecidableEq, Repr

/-- Pydantic validation constraint of `TripSpec`: at least one leg. -/
def TripSpec.valid (ts : TripSpec) : Prop := ts.legs ≠ []

/-- Contracts: `PlanTask`. -/
structure PlanTask where
  task_id : String
  agent : Agent
  input_ref : String
  depends_on : List String := []
  parallel_group : Option String := none
  stop_condition : Option String := none
deriving DecidableEq, Repr

/-- Contracts: `Plan` (the pydantic `min_length=1` constraint on `tasks` is
stated as `Plan.valid`). -/
structure Plan where
  tasks : List PlanTask
deriving DecidableEq, Repr

/-- Pydantic validation constraint of `Plan`: at least one task. -/
def Plan.valid (p : Plan) : Prop := p.tasks ≠ []

/-- Contracts: `EvidenceItem`; the timestamp is modelled as an integer. -/
structure EvidenceItem where
  source : String
  title : String
  snippet : String
  retrieved_at : Int
  url : Option String := none
deriving DecidableEq, Repr

/-- Contracts: `StandardAgentResult`.  The `data` payload is an opaque
structured map, modelled as a list of key/value pairs; the executor never
inspects it. -/
structure StandardAgentResult where
  data : List (String × String)
  evidence : List EvidenceItem := []
  confidence : ℚ
  warnings : List String := []
  cache_key : String
deriving DecidableEq, Repr

/-- Executor: `TaskExecutionRecord` dataclass. -/
structure TaskExecutionRecord where
  task_id : String
  agent : Agent
  success : Bool
  attempts : Nat
  issues : List Issue := []
deriving DecidableEq, Repr

/-- Status literal of `ExecutionOutcome`. -/
inductive ExecStatus
  | completed
  | clarification_needed
deriving DecidableEq, Repr

/-- Executor: `ExecutionOutcome` dataclass.  `results` is a Python dict
(insertion-ordered), modelled as an association list. -/
structure ExecutionOutcome where
  status : ExecStatus
  results : List (String × StandardAgentResult)
  records : List TaskExecutionRecord
  stages : List (List String)
  clarifying_question : Option String := none
deriving DecidableEq, Repr

/-- One observable outcome of calling a registered handler on a task at a
given attempt: the handler raises, or returns a payload that fails to
validate as a `StandardAgentResult`, or returns a payload that parses. -/
inductive HandlerResult
  | exception
  | invalid
  | ok (result : StandardAgentResult)
deriving DecidableEq, Repr

/-- A (possibly stateful) task handler: the observable behaviour of one
invocation, as a function of the task and of the 1-based attempt number at
which the executor invokes it. -/
def Handler : Type := PlanTask → Nat → HandlerResult

/-- Constructor state of `OrchestratorExecutor`: the handler table and the
three configuration knobs, with their Python defaults. -/
structure ExecEnv where
  handlers : Agent → Option Handler
  confidence_threshold : ℚ := mkRat 1 2
  max_retries : Nat := 1
  critical_agents : List Agent := [.geo, .weather, .poi, .transport]

/-- Return value of `_invoke_and_evaluate`, a pair
`(StandardAgentResult | None, list[str])` in Python.  The three constructors
correspond exactly to its return statements: `early i` is `return None, [i]`
(handler missing / handler exception / schema invalid) and `parsed r issues`
is `return result, issues` after the semantic checks. -/
inductive InvokeOutcome
  | early (issue : Issue)
  | parsed (result : StandardAgentResult) (issues : List Issue)
deriving Repr

/-- First component of the Python return tuple of `_invoke_and_evaluate`. -/
def InvokeOutcome.result : InvokeOutcome → Option StandardAgentResult
  | .early _ => none
  | .parsed r _ => some r

/-- Second component (the issue list) of the Python return tuple of
`_invoke_and_evaluate`. -/
def InvokeOutcome.issues : InvokeOutcome → List Issue
  | .early i => [i]
  | .parsed _ issues => issues

/-- Embedding of `OrchestratorExecutor._invoke_and_evaluate` (executor.py lines 160-182),
for the invocation made at the given attempt number. -/
def invokeAndEvaluate (env : ExecEnv) (task : PlanTask) (attempt : Nat) :
    InvokeOutcome :=
  match env.handlers task.agent with
  | none => .early .handler_missing
  | some handler =>
    match handler task attempt with
    | .exception => .early .handler_exception
    | .invalid => .early .schema_invalid
    | .ok result =>
      .parsed result
        ((if result.evidence = [] then [Issue.evidence_empty] else []) ++
         (if result.confidence < env.confidence_threshold then [Issue.confidence_low] else []) ++
         (if result.cache_key = "" then [Issue.consistency_invalid] else []))

/-- Membership test in the retryable issue set
`{"schema_invalid", "evidence_empty", "confidence_low"}`. -/
def retryableIssue : Issue → Bool
  | .schema_invalid => true
  | .evidence_empty => true
  | .confidence_low => true
  | _ => false

/-- The `retryable = any(item in {...} for item in issues)` test of
`_execute_task_with_retry`. -/
def retryableIssues (issues : List Issue) : Bool :=
  issues.any retryableIssue

/-- Return value of `_execute_task_with_retry` (a dict in Python with keys
`success`, `result`, `issues`, `record`): `ok` is the success dict (whose
`issues` entry is `[]`), `fail` the failure dict (whose `result` entry is
`None`). -/
inductive RetryOutcome
  | ok (result : StandardAgentResult) (record : TaskExecutionRecord)
  | fail (issues : List Issue) (record : TaskExecutionRecord)
deriving DecidableEq, Repr

/-- The `success` entry of the `_execute_task_with_retry` return dict. -/
def RetryOutcome.success : RetryOutcome → Bool
  | .ok _ _ => true
  | .fail _ _ => false

/-- The `record` entry of the `_execute_task_with_retry` return dict. -/
def RetryOutcome.record : RetryOutcome → TaskExecutionRecord
  | .ok _ r => r
  | .fail _ r => r

/-- The `issues` entry of the `_execute_task_with_retry` return dict. -/
def RetryOutcome.issues : RetryOutcome → List Issue
  | .ok _ _ => []
  | .fail i _ => i

/-- The `result` entry of the `_execute_task_with_retry` return dict. -/
def RetryOutcome.result : RetryOutcome → Option StandardAgentResult
  | .ok r _ => some r
  | .fail _ _ => none

/-- The attempt loop of `_execute_task_with_retry` (executor.py lines
121-145), entered at attempt number `attempt` with `remaining` further
attempts allowed after the current one (so the Python guard
`attempt < max_attempts` is `remaining ≠ 0`).  An issue-free attempt
returns the success dict; otherwise the loop retries exactly when attempts
remain and the issue list is retryable, and otherwise returns the failure
dict for the last attempt. -/
def retryFrom (env : ExecEnv) (task : PlanTask) :
    Nat → Nat → RetryOutcome
  | attempt, 0 =>
    match invokeAndEvaluate env task attempt with
    | .parsed result [] =>
      .ok result
        { task_id := task.task_id, agent := task.agent, success := true,
          attempts := attempt, issues := [] }
    | out =>
      .fail out.issues
        { task_id := task.task_id, agent := task.agent, success := false,
          attempts := attempt, issues := out.issues }
  | attempt, remaining + 1 =>
    match invokeAndEvaluate env task attempt with
    | .parsed result [] =>
      .ok result
        { task_id := task.task_id, agent := task.agent, success := true,
          attempts := attempt, issues := [] }
    | out =>
      if retryableIssues out.issues then
        retryFrom env task (attempt + 1) remaining
      else
        .fail out.issues
          { task_id := task.task_id, agent := task.agent, success := false,
            attempts := attempt, issues := out.issues }

/-- Issue list of the invocation made at attempt number `k`. -/
def attemptIssues (env : ExecEnv) (task : PlanTask) (k : Nat) : List Issue :=
  (invokeAndEvaluate env task k).issues

/-- Embedding of `OrchestratorExecutor._execute_task_with_retry` (executor.py lines
117-158): `max_attempts = max_retries + 1`, first attempt is number 1. -/
def executeTaskWithRetry (env : ExecEnv) (task : PlanTask) : RetryOutcome :=
  retryFrom env task 1 env.max_retries

/-- Python code-point comparison of character lists (string `<`/`<=` is
lexicographic on code points); `listLeB a b` decides `a <= b`. -/
def listLeB : List Char → List Char → Bool
  | [], _ => true
  | _ :: _, [] => false
  | a :: as, b :: bs =>
    if a.toNat < b.toNat then true
    else if b.toNat < a.toNat then false
    else listLeB as bs

/-- Python string `<=` (code-point lexicographic), executable. -/
def strLeB (a b : String) : Bool := listLeB a.data b.data

/-- Python string `<` (code-point lexicographic), executable. -/
def strLtB (a b : String) : Bool := strLeB a b && !(a == b)

/-- The grouping key of `_group_ready_tasks`:
`task.parallel_group or f"solo:{task.task_id}"`.  A Python `or` falls
through on falsy values, so both a missing and an empty `parallel_group`
yield the solo key. -/
def groupKey (t : PlanTask) : String :=
  match t.parallel_group with
  | some g => if g = "" then "solo:" ++ t.task_id else g
  | none => "solo:" ++ t.task_id

/-- Modelled from the claim's words (not from the source): the grouping key
under which, per the specification text, an ungrouped task forms a singleton
group keyed by its own task_id; used only to compare the claimed ordering
with the implemented one. -/
def claimedGroupKey (t : PlanTask) : String :=
  match t.parallel_group with
  | some g => g
  | none => t.task_id

/-- Concrete ungrouped task used to compare the two grouping keys. -/
def soloTaskB : PlanTask :=
  { task_id := "b", agent := .geo, input_ref := "legs[0]" }

/-- Concrete task with an explicit parallel group tag between "b" and
"solo:b" in lexicographic order. -/
def groupedTaskZ : PlanTask :=
  { task_id := "z", agent := .poi, input_ref := "legs[0]",
    parallel_group := some "m" }

/-- Concrete task with an empty (falsy) parallel group tag. -/
def emptyTagTask : PlanTask :=
  { task_id := "e", agent := .poi, input_ref := "legs[0]",
    parallel_group := some "" }

/-- Embedding of `OrchestratorExecutor._group_ready_tasks` (executor.py lines 106-115):
bucket the ready tasks by `groupKey`, then emit the buckets in ascending
key order, each bucket sorted by `task_id`.  `sorted` over the distinct
bucket keys is the insertion sort of the deduplicated key list, and the
per-bucket task order before sorting is the `ready` order, so each bucket
is the stable sort of the corresponding filter of `ready`. -/
def groupReadyTasks (ready : List PlanTask) : List (List PlanTask) :=
  let keys := ((ready.map groupKey).dedup).insertionSort (fun a b => strLeB a b = true)
  keys.map (fun k =>
    (ready.filter (fun t => groupKey t = k)).insertionSort
      (fun a b => strLeB a.task_id b.task_id = true))

/-- Python dict update `m[k] = v`: replace in place if the key is present,
otherwise append at the end (insertion order). -/
def setKey {α : Type} (m : List (String × α)) (k : String) (v : α) :
    List (String × α) :=
  if m.any (fun p => p.1 = k) then
    m.map (fun p => if p.1 = k then (k, v) else p)
  else
    m ++ [(k, v)]

/-- Python `set.add` on the `completed` set of task ids (only membership in
the set is ever observed). -/
def addCompleted (completed : List String) (id : String) : List String :=
  if id ∈ completed then completed else completed ++ [id]

/-- Python `pending.pop(task_id, None)`: remove the (first) entry with the
given task id, if any. -/
def erasePending (pending : List PlanTask) (id : String) : List PlanTask :=
  pending.eraseP (fun t => t.task_id = id)

/-- An apostrophe character, used in the clarifying-question text. -/
def quoteChar : String := String.singleton (Char.ofNat 39)

/-- The clarifying-question f-string of `OrchestratorExecutor.execute`
(executor.py lines 74-77). -/
def clarifyingQuestion (task : PlanTask) (issues : List Issue) : String :=
  "I need clarification because task " ++ quoteChar ++ task.task_id ++ quoteChar ++
    " failed (" ++ String.intercalate ", " (issues.map Issue.code) ++ ")."

/-- Mutable state of one `OrchestratorExecutor.execute` call. -/
structure ExecState where
  pending : List PlanTask
  completed : List String
  results : List (String × StandardAgentResult)
  records : List TaskExecutionRecord
  stages : List (List String)
deriving DecidableEq, Repr

/-- The `clarification_needed` early return of `execute` (lines 78-84). -/
def haltedOutcome (st : ExecState) (record : TaskExecutionRecord)
    (task : PlanTask) (issues : List Issue) : ExecutionOutcome :=
  { status := .clarification_needed,
    results := st.results,
    records := st.records ++ [record],
    stages := st.stages,
    clarifying_question := some (clarifyingQuestion task issues) }

/-- The `for task in group` body of `execute` (executor.py lines 68-96),
carrying the `stage_task_ids` accumulator; `.inr` is the early
`clarification_needed` return, `.inl` the state after the group (with the
stage entry appended when at least one task of the group succeeded). -/
def processGroup (env : ExecEnv) :
    ExecState → List String → List PlanTask → ExecState ⊕ ExecutionOutcome
  | st, stage_ids, [] =>
    .inl (if stage_ids = [] then st
          else { st with stages := st.stages ++ [stage_ids] })
  | st, stage_ids, task :: rest =>
    match executeTaskWithRetry env task with
    | .ok result record =>
      processGroup env
        { st with
          records := st.records ++ [record],
          results := setKey st.results task.task_id result,
          completed := addCompleted st.completed task.task_id,
          pending := erasePending st.pending task.task_id }
        (stage_ids ++ [task.task_id]) rest
    | .fail issues record =>
      if task.agent ∈ env.critical_agents then
        .inr (haltedOutcome st record task issues)
      else
        processGroup env
          { st with
            records := st.records ++ [record],
            completed := addCompleted st.completed task.task_id,
            pending := erasePending st.pending task.task_id }
          stage_ids rest

/-- The `for group in grouped` loop of `execute`. -/
def processGroups (env : ExecEnv) :
    ExecState → List (List PlanTask) → ExecState ⊕ ExecutionOutcome
  | st, [] => .inl st
  | st, g :: gs =>
    match processGroup env st [] g with
    | .inl st' => processGroups env st' gs
    | .inr o => .inr o

/-- The ready filter of `execute`: pending tasks whose every dependency is
completed. -/
def readyTasks (st : ExecState) : List PlanTask :=
  st.pending.filter (fun t => t.depends_on.all (fun d => decide (d ∈ st.completed)))

/-- The `completed` outcome built at the end of `execute` (lines 98-104). -/
def completedOutcome (st : ExecState) : ExecutionOutcome :=
  { status := .completed, results := st.results, records := st.records,
    stages := st.stages, clarifying_question := none }

/-- The `while pending` loop of `execute` (executor.py lines 57-96).  The
loop terminates because every pass removes at least one pending task; the
recursion is bounded by the `fuel` parameter, instantiated in `execute`
with the number of plan tasks, which is an upper bound on the number of
passes of any run that does not raise.  `Except.error` models the Python
`raise RuntimeError`. -/
def execLoop (env : ExecEnv) : Nat → ExecState → Except String ExecutionOutcome
  | fuel, st =>
    if st.pending = [] then .ok (completedOutcome st)
    else
      let ready := readyTasks st
      if ready = [] then .error "Plan has unresolved/circular dependencies."
      else
        match fuel with
        | 0 => .error "loop bound exhausted"
        | fuel' + 1 =>
          match processGroups env st (groupReadyTasks ready) with
          | .inr outcome => .ok outcome
          | .inl st' => execLoop env fuel' st'

/-- The Python dict comprehension
`{task.task_id: task for task in plan.tasks}`: later duplicate ids
overwrite the stored task in place, fresh ids append. -/
def buildPending (tasks : List PlanTask) : List PlanTask :=
  tasks.foldl
    (fun acc t =>
      if acc.any (fun u => u.task_id = t.task_id) then
        acc.map (fun u => if u.task_id = t.task_id then t else u)
      else acc ++ [t])
    []

/-- Embedding of `OrchestratorExecutor.execute` (executor.py lines 50-104). -/
def execute (env : ExecEnv) (plan : Plan) : Except String ExecutionOutcome :=
  execLoop env plan.tasks.length
    { pending := buildPending plan.tasks, completed := [], results := [],
      records := [], stages := [] }

/-- Local state of `OrchestratorPlanner.generate` (planner.py lines 12-16);
the Python `dict[int, str]` maps are association lists queried only by key. -/
structure PlannerState where
  tasks : List PlanTask
  leg_geo_task : List (Nat × String)
  leg_weather_task : List (Nat × String)
  leg_poi_task : List (Nat × String)
  transport_task_ids : List String
deriving Repr

/-- Python `d[k]` on an int-keyed dict of strings (total model of an
indexing that the planner only performs on keys it has inserted, which the
development proves always succeed). -/
def dictGet (m : List (Nat × String)) (k : Nat) : String :=
  (m.lookup k).getD ""

/-- One iteration of the `for idx, leg in enumerate(tripspec.legs)` loop of
`OrchestratorPlanner.generate` (planner.py lines 18-75). -/
def processLeg (st : PlannerState) (idx : Nat) (leg : TripLeg) : PlannerState :=
  let input_ref := "legs[" ++ Nat.repr idx ++ "]"
  let st : PlannerState :=
    match leg.geo with
    | none =>
      let geo_id := "geo_leg_" ++ Nat.repr idx
      { st with
        leg_geo_task := (idx, geo_id) :: st.leg_geo_task,
        tasks := st.tasks ++
          [{ task_id := geo_id, agent := .geo, input_ref := input_ref,
             depends_on := [] }] }
    | some _ => st
  let st : PlannerState :=
    if 0 < idx then
      let transport_id :=
        "transport_leg_" ++ Nat.repr (idx - 1) ++ "_" ++ Nat.repr idx
      let depends_on :=
        [dictGet st.leg_weather_task (idx - 1), dictGet st.leg_poi_task (idx - 1)]
      let depends_on :=
        if (st.leg_geo_task.lookup idx).isSome then
          depends_on ++ [dictGet st.leg_geo_task idx]
        else depends_on
      { st with
        tasks := st.tasks ++
          [{ task_id := transport_id, agent := .transport,
             input_ref := "legs[" ++ Nat.repr (idx - 1) ++ "]->legs[" ++
               Nat.repr idx ++ "]",
             depends_on := depends_on,
             parallel_group := some ("transfer_" ++ Nat.repr (idx - 1) ++ "_" ++
               Nat.repr idx) }],
        transport_task_ids := st.transport_task_ids ++ [transport_id] }
    else st
  let weather_id := "weather_leg_" ++ Nat.repr idx
  let weather_deps :=
    if (st.leg_geo_task.lookup idx).isSome then [dictGet st.leg_geo_task idx]
    else []
  let st : PlannerState :=
    { st with
      tasks := st.tasks ++
        [{ task_id := weather_id, agent := .weather, input_ref := input_ref,
           depends_on := weather_deps,
           parallel_group := some ("leg_" ++ Nat.repr idx ++ "_enrichment") }],
      leg_weather_task := (idx, weather_id) :: st.leg_weather_task }
  let poi_id := "poi_leg_" ++ Nat.repr idx
  let poi_deps :=
    if (st.leg_geo_task.lookup idx).isSome then [dictGet st.leg_geo_task idx]
    else []
  { st with
    tasks := st.tasks ++
      [{ task_id := poi_id, agent := .poi, input_ref := input_ref,
         depends_on := poi_deps,
         parallel_group := some ("leg_" ++ Nat.repr idx ++ "_enrichment") }],
    leg_poi_task := (idx, poi_id) :: st.leg_poi_task }

/-- The whole `enumerate` loop of `generate`, starting at index `idx`. -/
def processLegs : PlannerState → Nat → List TripLeg → PlannerState
  | st, _, [] => st
  | st, idx, leg :: rest => processLegs (processLeg st idx leg) (idx + 1) rest

/-- The terminal synth task of the plan (planner.py lines 83-91). -/
def synthTask (synth_deps : List String) : PlanTask :=
  { task_id := "synth_trip", agent := .synth, input_ref := "trip",
    depends_on := synth_deps,
    stop_condition := some "validated_inputs_present" }

/-- Embedding of `OrchestratorPlanner.generate` (planner.py lines 11-92). -/
def generate (ts : TripSpec) : Plan :=
  let st := processLegs ⟨[], [], [], [], []⟩ 0 ts.legs
  let synth_deps :=
    (List.range ts.legs.length).foldl
      (fun acc idx =>
        acc ++ [dictGet st.leg_weather_task idx, dictGet st.leg_poi_task idx])
      []
    ++ st.transport_task_ids
  Plan.mk (st.tasks ++ [synthTask synth_deps])

/-- Cache: `_CacheItem` dataclass (cache.py lines 16-19). -/
structure CacheItem (α : Type) where
  value : α
  expires_at : ℚ
deriving DecidableEq, Repr

/-- Cache: `MemoryCache` state; `items` is the `OrderedDict`, least
recently used first. -/
structure MemoryCache (α : Type) where
  max_size : Nat
  items : List (String × CacheItem α)
deriving DecidableEq, Repr

/-- Embedding of `MemoryCache.__init__` (cache.py lines 25-30): raises (`none`) unless
`max_size > 0`. -/
def MemoryCache.make (α : Type) (max_size : Int) : Option (MemoryCache α) :=
  if max_size ≤ 0 then none else some ⟨max_size.toNat, []⟩

/-- Python `OrderedDict.pop(key, None)` on the item table. -/
def eraseKey {α : Type} (items : List (String × CacheItem α)) (key : String) :
    List (String × CacheItem α) :=
  items.eraseP (fun p => p.1 = key)

/-- Python `OrderedDict.move_to_end(key)`: move the entry for `key` to the most
recently used position (`get` only calls it on present keys). -/
def moveToEnd {α : Type} (items : List (String × CacheItem α)) (key : String) :
    List (String × CacheItem α) :=
  match items.lookup key with
  | none => items
  | some it => eraseKey items key ++ [(key, it)]

/-- Embedding of `MemoryCache._evict_if_needed` (cache.py lines 63-65): pop the least
recently used entry while the table is over capacity. -/
def evictIfNeeded {α : Type} (max_size : Nat) :
    List (String × CacheItem α) → List (String × CacheItem α)
  | [] => []
  | x :: xs =>
    if max_size < xs.length + 1 then evictIfNeeded max_size xs else x :: xs

/-- Embedding of `MemoryCache.get` (cache.py lines 32-40), with the clock reading passed
explicitly; returns the Python return value (with `default=None`) together
with the mutated cache. -/
def MemoryCache.get {α : Type} (c : MemoryCache α) (now : ℚ) (key : String) :
    Option α × MemoryCache α :=
  match c.items.lookup key with
  | none => (none, c)
  | some item =>
    if item.expires_at ≤ now then
      (none, { c with items := eraseKey c.items key })
    else
      (some item.value, { c with items := moveToEnd c.items key })

/-- Embedding of `MemoryCache.set` (cache.py lines 42-51).  In Python the entry is
popped, re-assigned (which appends a fresh key at the end) and moved to the
end (a no-op on the just-appended key); the net items table is the erase
followed by the append. -/
def MemoryCache.set {α : Type} (c : MemoryCache α) (now : ℚ) (key : String)
    (value : α) (ttl_seconds : ℚ) : MemoryCache α :=
  if ttl_seconds ≤ 0 then { c with items := eraseKey c.items key }
  else
    let expires_at := now + ttl_seconds
    { c with
      items := evictIfNeeded c.max_size
        (eraseKey c.items key ++ [(key, ⟨value, expires_at⟩)]) }

/-- Embedding of `MemoryCache.delete` (cache.py lines 53-54). -/
def MemoryCache.delete {α : Type} (c : MemoryCache α) (key : String) :
    MemoryCache α :=
  { c with items := eraseKey c.items key }

/-- Embedding of `MemoryCache.cleanup_expired` (cache.py lines 56-61): purge every
expired entry, returning the number removed and the mutated cache. -/
def MemoryCache.cleanup_expired {α : Type} (c : MemoryCache α) (now : ℚ) :
    Nat × MemoryCache α :=
  let expired := c.items.filter (fun p => p.2.expires_at ≤ now)
  (expired.length,
   { c with items := c.items.filter (fun p => ¬ p.2.expires_at ≤ now) })

/-- State of `RateLimiter` (cache.py lines 68-80). -/
structure RateLimiter where
  rate_per_second : ℚ
  capacity : ℚ
  tokens : ℚ
  last_refill : ℚ
deriving DecidableEq, Repr

/-- Embedding of `RateLimiter.__init__`: raises (`none`) unless both the rate and the
capacity are positive; the bucket starts full and the last-refill stamp is
the construction-time clock reading. -/
def RateLimiter.make (rate_per_second capacity now : ℚ) : Option RateLimiter :=
  if rate_per_second ≤ 0 then none
  else if capacity ≤ 0 then none
  else some ⟨rate_per_second, capacity, capacity, now⟩

/-- Embedding of `RateLimiter._refill` (cache.py lines 100-104). -/
def RateLimiter.refill (l : RateLimiter) (now : ℚ) : RateLimiter :=
  let elapsed := max 0 (now - l.last_refill)
  { l with
    last_refill := now,
    tokens := min l.capacity (l.tokens + elapsed * l.rate_per_second) }

/-- Embedding of `RateLimiter.allow` (cache.py lines 82-89); `none` models the
`ValueError` on a non-positive cost. -/
def RateLimiter.allow (l : RateLimiter) (now : ℚ) (tokens : ℚ := 1) :
    Option (Bool × RateLimiter) :=
  if tokens ≤ 0 then none
  else
    let l := l.refill now
    if tokens ≤ l.tokens then some (true, { l with tokens := l.tokens - tokens })
    else some (false, l)

/-- Embedding of `RateLimiter.wait_time` (cache.py lines 91-98); `none` models the
`ValueError` on a non-positive cost. -/
def RateLimiter.wait_time (l : RateLimiter) (now : ℚ) (tokens : ℚ := 1) :
    Option (ℚ × RateLimiter) :=
  if tokens ≤ 0 then none
  else
    let l := l.refill now
    if tokens ≤ l.tokens then some (0, l)
    else some ((tokens - l.tokens) / l.rate_per_second, l)

def taskW : PlanTask :=
  { task_id := "weather_leg_0", agent := .weather, input_ref := "legs[0]",
    depends_on := [], parallel_group := some "leg_0_enrichment" }

def raisingHandler : Handler := fun _ _ => .exception

def envRaise : ExecEnv := { handlers := fun _ => some raisingHandler }

def evidenceItem1 : EvidenceItem :=
  { source := "srv", title := "t", snippet := "sn", retrieved_at := 0 }

def okResult : StandardAgentResult :=
  { data := [], evidence := [evidenceItem1], confidence := 1, cache_key := "ck" }

def okHandler : Handler := fun _ _ => .ok okResult

def invalidHandler : Handler := fun _ _ => .invalid

def geoTask0 : PlanTask :=
  { task_id := "geo_leg_0", agent := .geo, input_ref := "legs[0]" }

def weatherTask0 : PlanTask :=
  { task_id := "weather_leg_0", agent := .weather, input_ref := "legs[0]",
    depends_on := ["geo_leg_0"], parallel_group := some "leg_0_enrichment" }

def synthTask0 : PlanTask :=
  { task_id := "synth_trip", agent := .synth, input_ref := "trip",
    depends_on := ["weather_leg_0"],
    stop_condition := some "validated_inputs_present" }

def handlersCrit : Agent → Option Handler
  | .weather => some invalidHandler
  | _ => some okHandler

def envCrit : ExecEnv := { handlers := handlersCrit }

def planCrit : Plan := ⟨[geoTask0, weatherTask0, synthTask0]⟩

def recGeoOk : TaskExecutionRecord :=
  { task_id := "geo_leg_0", agent := .geo, success := true, attempts := 1 }

def recWeatherFail : TaskExecutionRecord :=
  { task_id := "weather_leg_0", agent := .weather, success := false,
    attempts := 2, issues := [.schema_invalid] }

def outcomeCrit : ExecutionOutcome :=
  { status := .clarification_needed,
    results := [("geo_leg_0", okResult)],
    records := [recGeoOk, recWeatherFail],
    stages := [["geo_leg_0"]],
    clarifying_question := some (clarifyingQuestion weatherTask0 [.schema_invalid]) }

def handlersNC : Agent → Option Handler
  | .synth => some invalidHandler
  | _ => some okHandler

def envNC : ExecEnv := { handlers := handlersNC }

def synthTaskNC : PlanTask :=
  { task_id := "synth_trip", agent := .synth, input_ref := "trip" }

def afterTask : PlanTask :=
  { task_id := "zz_after_synth", agent := .geo, input_ref := "legs[0]",
    depends_on := ["synth_trip"] }

def planNC : Plan := ⟨[synthTaskNC, afterTask]⟩

def recSynthFail : TaskExecutionRecord :=
  { task_id := "synth_trip", agent := .synth, success := false, attempts := 2,
    issues := [.schema_invalid] }

def recAfterOk : TaskExecutionRecord :=
  { task_id := "zz_after_synth", agent := .geo, success := true, attempts := 1 }

def outcomeNC : ExecutionOutcome :=
  { status := .completed,
    results := [("zz_after_synth", okResult)],
    records := [recSynthFail, recAfterOk],
    stages := [["zz_after_synth"]],
    clarifying_question := none }

def poiSibling : PlanTask :=
  { task_id := "aa_poi", agent := .poi, input_ref := "legs[0]",
    parallel_group := some "g1" }

def weatherSibling : PlanTask :=
  { task_id := "bb_weather", agent := .weather, input_ref := "legs[0]",
    parallel_group := some "g1" }

def planC9 : Plan := ⟨[weatherSibling, poiSibling]⟩

def recPoiSiblingOk : TaskExecutionRecord :=
  { task_id := "aa_poi", agent := .poi, success := true, attempts := 1 }

def recWeatherSiblingFail : TaskExecutionRecord :=
  { task_id := "bb_weather", agent := .weather, success := false, attempts := 2,
    issues := [.schema_invalid] }

def outcomeC9 : ExecutionOutcome :=
  { status := .clarification_needed,
    results := [("aa_poi", okResult)],
    records := [recPoiSiblingOk, recWeatherSiblingFail],
    stages := [],
    clarifying_question := some (clarifyingQuestion weatherSibling [.schema_invalid]) }

def envAll : ExecEnv := { handlers := fun _ => some okHandler }

def poiTask0 : PlanTask :=
  { task_id := "poi_leg_0", agent := .poi, input_ref := "legs[0]",
    depends_on := ["geo_leg_0"], parallel_group := some "leg_0_enrichment" }

def transportTask01 : PlanTask :=
  { task_id := "transport_leg_0_1", agent := .transport,
    input_ref := "legs[0]->legs[1]",
    depends_on := ["weather_leg_0", "poi_leg_0"],
    parallel_group := some "transfer_0_1" }

def synthTaskC4 : PlanTask :=
  { task_id := "synth_trip", agent := .synth, input_ref := "trip",
    depends_on := ["transport_leg_0_1"],
    stop_condition := some "validated_inputs_present" }

def planC4 : Plan := ⟨[geoTask0, poiTask0, weatherTask0, transportTask01, synthTaskC4]⟩

def recPoiOk : TaskExecutionRecord :=
  { task_id := "poi_leg_0", agent := .poi, success := true, attempts := 1 }

def recWeatherOk : TaskExecutionRecord :=
  { task_id := "weather_leg_0", agent := .weather, success := true, attempts := 1 }

def recTransportOk : TaskExecutionRecord :=
  { task_id := "transport_leg_0_1", agent := .transport, success := true,
    attempts := 1 }

def recSynthOk : TaskExecutionRecord :=
  { task_id := "synth_trip", agent := .synth, success := true, attempts := 1 }

def outcomeC4 : ExecutionOutcome :=
  { status := .completed,
    results := [("geo_leg_0", okResult), ("poi_leg_0", okResult),
      ("weather_leg_0", okResult), ("transport_leg_0_1", okResult),
      ("synth_trip", okResult)],
    records := [recGeoOk, recPoiOk, recWeatherOk, recTransportOk, recSynthOk],
    stages := [["geo_leg_0"], ["poi_leg_0", "weather_leg_0"],
      ["transport_leg_0_1"], ["synth_trip"]],
    clarifying_question := none }

def natDigits (n : Nat) : List Char :=
  if _h : n < 10 then [Nat.digitChar n]
  else natDigits (n / 10) ++ [Nat.digitChar (n % 10)]
decreasing_by exact Nat.div_lt_self (by omega) (by omega)

def geoId (i : Nat) : String := "geo_leg_" ++ Nat.repr i

def weatherId (i : Nat) : String := "weather_leg_" ++ Nat.repr i

def poiId (i : Nat) : String := "poi_leg_" ++ Nat.repr i

def transportId (i : Nat) : String :=
  "transport_leg_" ++ Nat.repr (i - 1) ++ "_" ++ Nat.repr i

def legsRef (i : Nat) : String := "legs[" ++ Nat.repr i ++ "]"

def geoTaskAt (idx : Nat) : PlanTask :=
  { task_id := geoId idx, agent := .geo, input_ref := legsRef idx,
    depends_on := [] }

def transportTaskAt (idx : Nat) (g : Bool) : PlanTask :=
  { task_id := transportId idx, agent := .transport,
    input_ref := "legs[" ++ Nat.repr (idx - 1) ++ "]->legs[" ++
      Nat.repr idx ++ "]",
    depends_on := [weatherId (idx - 1), poiId (idx - 1)] ++
      (if g then [geoId idx] else []),
    parallel_group := some ("transfer_" ++ Nat.repr (idx - 1) ++ "_" ++
      Nat.repr idx) }

def weatherTaskAt (idx : Nat) (g : Bool) : PlanTask :=
  { task_id := weatherId idx, agent := .weather, input_ref := legsRef idx,
    depends_on := if g then [geoId idx] else [],
    parallel_group := some ("leg_" ++ Nat.repr idx ++ "_enrichment") }

def poiTaskAt (idx : Nat) (g : Bool) : PlanTask :=
  { task_id := poiId idx, agent := .poi, input_ref := legsRef idx,
    depends_on := if g then [geoId idx] else [],
    parallel_group := some ("leg_" ++ Nat.repr idx ++ "_enrichment") }

def blockFor (idx : Nat) (g : Bool) : List PlanTask :=
  (if g then [geoTaskAt idx] else []) ++
  (if 0 < idx then [transportTaskAt idx g] else []) ++
  [weatherTaskAt idx g, poiTaskAt idx g]

def planBlocks : Nat → List TripLeg → List PlanTask
  | _, [] => []
  | idx, leg :: rest => blockFor idx leg.geo.isNone ++ planBlocks (idx + 1) rest

def transportIdsFrom : Nat → List TripLeg → List String
  | _, [] => []
  | idx, _ :: rest =>
    (if 0 < idx then [transportId idx] else []) ++ transportIdsFrom (idx + 1) rest

def wpDeps (n : Nat) : List String :=
  ((List.range n).map (fun i => [weatherId i, poiId i])).flatten

def refsEarlier : List String → List PlanTask → Prop
  | _, [] => True
  | seen, t :: rest =>
    (∀ d ∈ t.depends_on, d ∈ seen) ∧ refsEarlier (seen ++ [t.task_id]) rest

def legA : TripLeg :=
  { destination_text := "rome", geo := none, date_range := ⟨0, 1⟩ }

theorem invokeAndEvaluate_issues_nil {env : ExecEnv} {task : PlanTask} {attempt : Nat}
    {r : StandardAgentResult}
    (h : invokeAndEvaluate env task attempt = .parsed r []) :
    attemptIssues env task attempt = [] := by
  simp [attemptIssues, h, InvokeOutcome.issues]

theorem retryFrom_of_empty {env : ExecEnv} {task : PlanTask} {attempt : Nat}
    {r : StandardAgentResult}
    (h : invokeAndEvaluate env task attempt = .parsed r []) (remaining : Nat) :
    retryFrom env task attempt remaining =
      .ok r { task_id := task.task_id, agent := task.agent, success := true,
              attempts := attempt, issues := [] } := by
  cases remaining <;> rw [retryFrom] <;> rw [h]

theorem retryFrom_stop_zero {env : ExecEnv} {task : PlanTask} {attempt : Nat}
    (h : attemptIssues env task attempt ≠ []) :
    retryFrom env task attempt 0 =
      .fail (attemptIssues env task attempt)
        { task_id := task.task_id, agent := task.agent, success := false,
          attempts := attempt, issues := attemptIssues env task attempt } := by
  rw [retryFrom]
  cases ho : invokeAndEvaluate env task attempt with
  | early i => simp [attemptIssues, ho, InvokeOutcome.issues]
  | parsed r issues =>
    cases issues with
    | nil => exact absurd (invokeAndEvaluate_issues_nil ho) h
    | cons x xs => simp [attemptIssues, ho, InvokeOutcome.issues]

theorem retryFrom_stop_nonretryable {env : ExecEnv} {task : PlanTask}
    {attempt remaining : Nat}
    (h : attemptIssues env task attempt ≠ [])
    (hr : retryableIssues (attemptIssues env task attempt) = false) :
    retryFrom env task attempt (remaining + 1) =
      .fail (attemptIssues env task attempt)
        { task_id := task.task_id, agent := task.agent, success := false,
          attempts := attempt, issues := attemptIssues env task attempt } := by
  rw [retryFrom]
  cases ho : invokeAndEvaluate env task attempt with
  | early i =>
    have hi : attemptIssues env task attempt = [i] := by
      simp [attemptIssues, ho, InvokeOutcome.issues]
    rw [hi] at hr
    simp [InvokeOutcome.issues, hr, hi]
  | parsed r issues =>
    cases issues with
    | nil => exact absurd (invokeAndEvaluate_issues_nil ho) h
    | cons x xs =>
      have hi : attemptIssues env task attempt = x :: xs := by
        simp [attemptIssues, ho, InvokeOutcome.issues]
      rw [hi] at hr
      simp [InvokeOutcome.issues, hr, hi]

theorem retryFrom_retry {env : ExecEnv} {task : PlanTask}
    {attempt remaining : Nat}
    (h : attemptIssues env task attempt ≠ [])
    (hr : retryableIssues (attemptIssues env task attempt) = true) :
    retryFrom env task attempt (remaining + 1) =
      retryFrom env task (attempt + 1) remaining := by
  rw [retryFrom]
  cases ho : invokeAndEvaluate env task attempt with
  | early i =>
    have hi : attemptIssues env task attempt = [i] := by
      simp [attemptIssues, ho, InvokeOutcome.issues]
    rw [hi] at hr
    simp [InvokeOutcome.issues, hr, hi]
  | parsed r issues =>
    cases issues with
    | nil => exact absurd (invokeAndEvaluate_issues_nil ho) h
    | cons x xs =>
      have hi : attemptIssues env task attempt = x :: xs := by
        simp [attemptIssues, ho, InvokeOutcome.issues]
      rw [hi] at hr
      simp [InvokeOutcome.issues, hr, hi]

theorem exists_parsed_of_issues_nil {env : ExecEnv} {task : PlanTask} {attempt : Nat}
    (h : attemptIssues env task attempt = []) :
    ∃ r, invokeAndEvaluate env task attempt = .parsed r [] := by
  cases ho : invokeAndEvaluate env task attempt with
  | early i => simp [attemptIssues, ho, InvokeOutcome.issues] at h
  | parsed r issues =>
    refine ⟨r, ?_⟩
    have hi : issues = [] := by simpa [attemptIssues, ho, InvokeOutcome.issues] using h
    rw [hi]

theorem retryFrom_char (env : ExecEnv) (task : PlanTask) :
    ∀ remaining attempt o, o = retryFrom env task attempt remaining →
      o.record = { task_id := task.task_id, agent := task.agent,
                   success := o.success, attempts := o.record.attempts,
                   issues := o.issues } ∧
      attempt ≤ o.record.attempts ∧
      o.record.attempts ≤ attempt + remaining ∧
      o.issues = attemptIssues env task o.record.attempts ∧
      (o.success = true ↔ attemptIssues env task o.record.attempts = []) ∧
      (∀ k, attempt ≤ k → k < o.record.attempts →
        attemptIssues env task k ≠ [] ∧
        retryableIssues (attemptIssues env task k) = true) ∧
      (o.success = false →
        o.record.attempts = attempt + remaining ∨
        retryableIssues (attemptIssues env task o.record.attempts) = false) := by
  intro remaining
  induction remaining with
  | zero =>
    intro attempt o ho
    by_cases h : attemptIssues env task attempt = []
    · obtain ⟨r, hr⟩ := exists_parsed_of_issues_nil h
      rw [retryFrom_of_empty hr 0] at ho
      subst ho
      simp only [RetryOutcome.record, RetryOutcome.success, RetryOutcome.issues]
      refine ⟨trivial, le_rfl, by omega, h.symm, by simp [h], ?_, by simp⟩
      intro k hk1 hk2
      omega
    · rw [retryFrom_stop_zero h] at ho
      subst ho
      simp only [RetryOutcome.record, RetryOutcome.success, RetryOutcome.issues]
      refine ⟨trivial, le_rfl, by omega, trivial, by simp [h], ?_, ?_⟩
      · intro k hk1 hk2
        omega
      · intro _
        left
        omega
  | succ rem ih =>
    intro attempt o ho
    by_cases h : attemptIssues env task attempt = []
    · obtain ⟨r, hr⟩ := exists_parsed_of_issues_nil h
      rw [retryFrom_of_empty hr (rem + 1)] at ho
      subst ho
      simp only [RetryOutcome.record, RetryOutcome.success, RetryOutcome.issues]
      refine ⟨trivial, le_rfl, by omega, h.symm, by simp [h], ?_, by simp⟩
      intro k hk1 hk2
      omega
    · by_cases hrb : retryableIssues (attemptIssues env task attempt) = true
      · rw [retryFrom_retry h hrb] at ho
        obtain ⟨h1, h2, h3, h4, h5, h6, h7⟩ := ih (attempt + 1) o ho
        refine ⟨h1, by omega, by omega, h4, h5, ?_, ?_⟩
        · intro k hk1 hk2
          rcases Nat.eq_or_lt_of_le hk1 with heq | hlt
          · exact heq ▸ ⟨h, hrb⟩
          · exact h6 k hlt hk2
        · intro hs
          rcases h7 hs with heq | hnr
          · left; omega
          · right; exact hnr
      · have hrb' : retryableIssues (attemptIssues env task attempt) = false := by
          simpa using hrb
        rw [retryFrom_stop_nonretryable h hrb'] at ho
        subst ho
        simp only [RetryOutcome.record, RetryOutcome.success, RetryOutcome.issues]
        refine ⟨trivial, le_rfl, by omega, trivial, by simp [h], ?_, ?_⟩
        · intro k hk1 hk2
          omega
        · intro _
          right
          exact hrb'

theorem retryableIssues_eq_true_iff (l : List Issue) :
    retryableIssues l = true ↔ ∃ i ∈ l, retryableIssue i = true := by
  simp [retryableIssues, List.any_eq_true]

theorem retryableIssues_eq_false_iff (l : List Issue) :
    retryableIssues l = false ↔ ∀ i ∈ l, retryableIssue i = false := by
  simp [retryableIssues, List.any_eq_false]

/-- C1: for every task the attempt loop of `_execute_task_with_retry` makes
between 1 and `max_retries + 1` attempts (default `max_retries = 1`, i.e. at
most two attempts); every non-final attempt had a non-empty issue list that
intersects the retryable set {schema_invalid, evidence_empty, confidence_low}
while attempts remained; a non-empty issue list containing only non-retryable
issues stops the loop at that very attempt with failure; and the final
`TaskExecutionRecord` carries the task identity, the last attempt's success
flag and issue list, and the cumulative number of attempts made. -/
theorem C1_retry_policy (env : ExecEnv) (task : PlanTask) :
    (1 ≤ (executeTaskWithRetry env task).record.attempts ∧
     (executeTaskWithRetry env task).record.attempts ≤ env.max_retries + 1) ∧
    (∀ k, 1 ≤ k → k < (executeTaskWithRetry env task).record.attempts →
       k < env.max_retries + 1 ∧
       ∃ i ∈ attemptIssues env task k, retryableIssue i = true) ∧
    (∀ k, 1 ≤ k → k ≤ (executeTaskWithRetry env task).record.attempts →
       attemptIssues env task k ≠ [] →
       (∀ i ∈ attemptIssues env task k, retryableIssue i = false) →
       (executeTaskWithRetry env task).record.attempts = k ∧
       (executeTaskWithRetry env task).success = false) ∧
    ((executeTaskWithRetry env task).record.task_id = task.task_id ∧
     (executeTaskWithRetry env task).record.agent = task.agent ∧
     (executeTaskWithRetry env task).record.success = (executeTaskWithRetry env task).success ∧
     (executeTaskWithRetry env task).record.issues = (executeTaskWithRetry env task).issues ∧
     (executeTaskWithRetry env task).record.issues =
       attemptIssues env task (executeTaskWithRetry env task).record.attempts) ∧
    (∀ hs : Agent → Option Handler, ({ handlers := hs } : ExecEnv).max_retries = 1) := by
  obtain ⟨h1, h2, h3, h4, h5, h6, h7⟩ :=
    retryFrom_char env task env.max_retries 1 (executeTaskWithRetry env task) rfl
  refine ⟨⟨h2, by omega⟩, ?_, ?_, ?_, fun _ => rfl⟩
  · intro k hk1 hk2
    obtain ⟨hne, hrb⟩ := h6 k hk1 hk2
    exact ⟨by omega, (retryableIssues_eq_true_iff _).1 hrb⟩
  · intro k hk1 hk2 hne hall
    have hrf : retryableIssues (attemptIssues env task k) = false :=
      (retryableIssues_eq_false_iff _).2 hall
    have heq : (executeTaskWithRetry env task).record.attempts = k := by
      rcases Nat.eq_or_lt_of_le hk2 with he | hlt
      · omega
      · obtain ⟨_, hrb⟩ := h6 k hk1 hlt
        rw [hrb] at hrf
        exact absurd hrf (by simp)
    refine ⟨heq, ?_⟩
    cases hs : (executeTaskWithRetry env task).success with
    | false => rfl
    | true =>
      have : attemptIssues env task (executeTaskWithRetry env task).record.attempts = [] :=
        h5.1 hs
      rw [heq] at this
      exact absurd this hne
  · have hfields : (executeTaskWithRetry env task).record.task_id = task.task_id ∧
        (executeTaskWithRetry env task).record.agent = task.agent ∧
        (executeTaskWithRetry env task).record.success = (executeTaskWithRetry env task).success ∧
        (executeTaskWithRetry env task).record.issues = (executeTaskWithRetry env task).issues := by
      constructor
      · exact congrArg TaskExecutionRecord.task_id h1
      constructor
      · exact congrArg TaskExecutionRecord.agent h1
      constructor
      · exact congrArg TaskExecutionRecord.success h1
      · exact congrArg TaskExecutionRecord.issues h1
    exact ⟨hfields.1, hfields.2.1, hfields.2.2.1, hfields.2.2.2, by rw [hfields.2.2.2]; exact h4⟩

/-- Witness for C1 at a concrete raising handler: the loop stops after one
attempt with failure. -/
theorem C1_retry_policy_witness :
    (executeTaskWithRetry envRaise taskW).record.attempts = 1 ∧
    (executeTaskWithRetry envRaise taskW).success = false :=
  (C1_retry_policy envRaise taskW).2.2.1 1 (by decide) (by decide) (by decide)
    (by decide)

/-- C2: the issue list produced by `_invoke_and_evaluate` is
`[handler_missing]` when no handler is registered for the task's agent kind,
`[handler_exception]` when the handler raises, `[schema_invalid]` when the
returned payload fails to parse as a `StandardAgentResult`, and otherwise the
concatenation, in this order, of `evidence_empty` (empty evidence),
`confidence_low` (confidence strictly below `confidence_threshold`, default
1/2) and `consistency_invalid` (empty cache_key); the task attempt succeeds
iff the issue list of the final attempt is empty. -/
theorem C2_issue_evaluation (env : ExecEnv) (task : PlanTask) (attempt : Nat) :
    (env.handlers task.agent = none →
      attemptIssues env task attempt = [Issue.handler_missing]) ∧
    (∀ h : Handler, env.handlers task.agent = some h →
      (h task attempt = .exception →
        attemptIssues env task attempt = [Issue.handler_exception]) ∧
      (h task attempt = .invalid →
        attemptIssues env task attempt = [Issue.schema_invalid]) ∧
      (∀ r, h task attempt = .ok r →
        attemptIssues env task attempt =
          (if r.evidence = [] then [Issue.evidence_empty] else []) ++
          (if r.confidence < env.confidence_threshold then [Issue.confidence_low] else []) ++
          (if r.cache_key = "" then [Issue.consistency_invalid] else []))) ∧
    ((executeTaskWithRetry env task).success = true ↔
      attemptIssues env task (executeTaskWithRetry env task).record.attempts = []) ∧
    (∀ hs : Agent → Option Handler,
      ({ handlers := hs } : ExecEnv).confidence_threshold = mkRat 1 2) := by
  refine ⟨?_, ?_, ?_, fun _ => rfl⟩
  · intro hnone
    simp [attemptIssues, invokeAndEvaluate, hnone, InvokeOutcome.issues]
  · intro h hsome
    refine ⟨?_, ?_, ?_⟩
    · intro hexc
      simp [attemptIssues, invokeAndEvaluate, hsome, hexc, InvokeOutcome.issues]
    · intro hinv
      simp [attemptIssues, invokeAndEvaluate, hsome, hinv, InvokeOutcome.issues]
    · intro r hok
      simp [attemptIssues, invokeAndEvaluate, hsome, hok, InvokeOutcome.issues]
  · obtain ⟨h1, h2, h3, h4, h5, h6, h7⟩ :=
      retryFrom_char env task env.max_retries 1 (executeTaskWithRetry env task) rfl
    exact h5

/-- Witness for C2 at a concrete raising handler. -/
theorem C2_issue_evaluation_witness :
    attemptIssues envRaise taskW 1 = [Issue.handler_exception] :=
  ((C2_issue_evaluation envRaise taskW 1).2.1 raisingHandler rfl).1 rfl

theorem listLeB_total : ∀ a b : List Char, listLeB a b = true ∨ listLeB b a = true := by
  intro a
  induction a with
  | nil => intro b; left; rfl
  | cons x xs ih =>
    intro b
    cases b with
    | nil => right; rfl
    | cons y ys =>
      by_cases h1 : x.toNat < y.toNat
      · left; simp [listLeB, h1]
      · by_cases h2 : y.toNat < x.toNat
        · right; simp [listLeB, h2]
        · rcases ih ys with h | h
          · left; simp [listLeB, h1, h2, h]
          · right; simp [listLeB, h1, h2, h]

theorem listLeB_trans : ∀ a b c : List Char,
    listLeB a b = true → listLeB b c = true → listLeB a c = true := by
  intro a
  induction a with
  | nil => intro b c _ _; rfl
  | cons x xs ih =>
    intro b c hab hbc
    cases b with
    | nil => simp [listLeB] at hab
    | cons y ys =>
      cases c with
      | nil => simp [listLeB] at hbc
      | cons z zs =>
        simp only [listLeB] at hab hbc ⊢
        rcases Nat.lt_trichotomy x.toNat y.toNat with h1 | h1 | h1
        · rcases Nat.lt_trichotomy y.toNat z.toNat with h2 | h2 | h2
          · simp [show x.toNat < z.toNat from by omega]
          · simp [show x.toNat < z.toNat from by omega]
          · simp [show ¬ y.toNat < z.toNat from by omega, h2] at hbc
        · rcases Nat.lt_trichotomy y.toNat z.toNat with h2 | h2 | h2
          · simp [show x.toNat < z.toNat from by omega]
          · simp only [show ¬ x.toNat < y.toNat from by omega,
              show ¬ y.toNat < x.toNat from by omega, if_false, if_neg] at hab
            simp only [show ¬ y.toNat < z.toNat from by omega,
              show ¬ z.toNat < y.toNat from by omega, if_false, if_neg] at hbc
            simp only [show ¬ x.toNat < z.toNat from by omega,
              show ¬ z.toNat < x.toNat from by omega, if_false, if_neg]
            exact ih ys zs hab hbc
          · simp [show ¬ y.toNat < z.toNat from by omega, h2] at hbc
        · simp [show ¬ x.toNat < y.toNat from by omega, h1] at hab

theorem char_toNat_inj {a b : Char} (h : a.toNat = b.toNat) : a = b :=
  Char.ext (UInt32.ext h)

theorem listLeB_antisymm : ∀ a b : List Char,
    listLeB a b = true → listLeB b a = true → a = b := by
  intro a
  induction a with
  | nil =>
    intro b _ hba
    cases b with
    | nil => rfl
    | cons y ys => simp [listLeB] at hba
  | cons x xs ih =>
    intro b hab hba
    cases b with
    | nil => simp [listLeB] at hab
    | cons y ys =>
      simp only [listLeB] at hab hba
      by_cases hxy : x.toNat < y.toNat <;> by_cases hyx : y.toNat < x.toNat <;>
        simp [hxy, hyx] at hab hba
      · omega
      · have hx : x = y := char_toNat_inj (by omega)
        rw [hx, ih ys hab hba]

theorem strLeB_total (a b : String) : strLeB a b = true ∨ strLeB b a = true :=
  listLeB_total a.data b.data

theorem strLeB_trans {a b c : String} (h1 : strLeB a b = true)
    (h2 : strLeB b c = true) : strLeB a c = true :=
  listLeB_trans a.data b.data c.data h1 h2

theorem strLeB_antisymm {a b : String} (h1 : strLeB a b = true)
    (h2 : strLeB b a = true) : a = b :=
  String.ext (listLeB_antisymm a.data b.data h1 h2)

theorem processGroup_nil (env : ExecEnv) (st : ExecState) (stage_ids : List String) :
    processGroup env st stage_ids [] =
      .inl (if stage_ids = [] then st
            else { st with stages := st.stages ++ [stage_ids] }) := by
  rw [processGroup]

theorem processGroup_ok (env : ExecEnv) (st : ExecState) (stage_ids : List String)
    {task : PlanTask} (rest : List PlanTask) {result : StandardAgentResult}
    {record : TaskExecutionRecord}
    (h : executeTaskWithRetry env task = .ok result record) :
    processGroup env st stage_ids (task :: rest) =
      processGroup env
        { st with
          records := st.records ++ [record],
          results := setKey st.results task.task_id result,
          completed := addCompleted st.completed task.task_id,
          pending := erasePending st.pending task.task_id }
        (stage_ids ++ [task.task_id]) rest := by
  rw [processGroup, h]

theorem processGroup_fail_critical (env : ExecEnv) (st : ExecState)
    (stage_ids : List String) {task : PlanTask} (rest : List PlanTask)
    {issues : List Issue} {record : TaskExecutionRecord}
    (h : executeTaskWithRetry env task = .fail issues record)
    (hc : task.agent ∈ env.critical_agents) :
    processGroup env st stage_ids (task :: rest) =
      .inr { status := .clarification_needed,
             results := st.results,
             records := st.records ++ [record],
             stages := st.stages,
             clarifying_question := some (clarifyingQuestion task issues) } := by
  rw [processGroup, h]
  simp [haltedOutcome, hc]

theorem processGroup_fail_noncritical (env : ExecEnv) (st : ExecState)
    (stage_ids : List String) {task : PlanTask} (rest : List PlanTask)
    {issues : List Issue} {record : TaskExecutionRecord}
    (h : executeTaskWithRetry env task = .fail issues record)
    (hc : task.agent ∉ env.critical_agents) :
    processGroup env st stage_ids (task :: rest) =
      processGroup env
        { st with
          records := st.records ++ [record],
          completed := addCompleted st.completed task.task_id,
          pending := erasePending st.pending task.task_id }
        stage_ids rest := by
  rw [processGroup, h]
  simp [hc]

theorem processGroup_stages_eq (env : ExecEnv) :
    ∀ (group : List PlanTask) (st : ExecState) (stage_ids : List String)
      (st' : ExecState),
      processGroup env st stage_ids group = .inl st' →
      st'.stages = st.stages ++
        (if stage_ids ++
             (group.filter (fun t => (executeTaskWithRetry env t).success)).map
               PlanTask.task_id = [] then []
         else [stage_ids ++
             (group.filter (fun t => (executeTaskWithRetry env t).success)).map
               PlanTask.task_id]) := by
  intro group
  induction group with
  | nil =>
    intro st stage_ids st' h
    rw [processGroup_nil] at h
    by_cases hs : stage_ids = []
    · simp [hs] at h ⊢
      rw [← h]
    · simp [hs] at h ⊢
      rw [← h]
  | cons task rest ih =>
    intro st stage_ids st' h
    cases hr : executeTaskWithRetry env task with
    | ok result record =>
      rw [processGroup_ok env st stage_ids rest hr] at h
      have := ih _ _ _ h
      rw [this]
      have hsucc : (executeTaskWithRetry env task).success = true := by
        rw [hr]; rfl
      simp only [List.filter_cons, hsucc, if_true, List.map_cons]
      simp [List.append_assoc]
    | fail issues record =>
      by_cases hc : task.agent ∈ env.critical_agents
      · rw [processGroup_fail_critical env st stage_ids rest hr hc] at h
        cases h
      · rw [processGroup_fail_noncritical env st stage_ids rest hr hc] at h
        have := ih _ _ _ h
        rw [this]
        have hsucc : (executeTaskWithRetry env task).success = false := by
          rw [hr]; rfl
        simp only [List.filter_cons, hsucc, if_false, Bool.false_eq_true]

theorem processGroups_nil (env : ExecEnv) (st : ExecState) :
    processGroups env st [] = .inl st := rfl

theorem processGroups_cons_inl (env : ExecEnv) {st st' : ExecState}
    {g : List PlanTask} (gs : List (List PlanTask))
    (h : processGroup env st [] g = .inl st') :
    processGroups env st (g :: gs) = processGroups env st' gs := by
  rw [processGroups, h]

theorem processGroups_cons_inr (env : ExecEnv) {st : ExecState}
    {g : List PlanTask} (gs : List (List PlanTask)) {o : ExecutionOutcome}
    (h : processGroup env st [] g = .inr o) :
    processGroups env st (g :: gs) = .inr o := by
  rw [processGroups, h]

theorem execLoop_done (env : ExecEnv) (fuel : Nat) {st : ExecState}
    (h : st.pending = []) :
    execLoop env fuel st = .ok (completedOutcome st) := by
  rw [execLoop]
  simp [h]

theorem execLoop_step (env : ExecEnv) (fuel : Nat) {st st' : ExecState}
    (h1 : st.pending ≠ []) (h2 : readyTasks st ≠ [])
    (h3 : processGroups env st (groupReadyTasks (readyTasks st)) = .inl st') :
    execLoop env (fuel + 1) st = execLoop env fuel st' := by
  rw [execLoop]
  simp [h1, h2, h3]

theorem execLoop_halt (env : ExecEnv) (fuel : Nat) {st : ExecState}
    {o : ExecutionOutcome}
    (h1 : st.pending ≠ []) (h2 : readyTasks st ≠ [])
    (h3 : processGroups env st (groupReadyTasks (readyTasks st)) = .inr o) :
    execLoop env (fuel + 1) st = .ok o := by
  rw [execLoop]
  simp [h1, h2, h3]

theorem lookup_map_replace {α : Type} (k : String) (v : α) :
    ∀ m : List (String × α), m.any (fun p => p.1 = k) = true →
      (m.map (fun p => if p.1 = k then (k, v) else p)).lookup k = some v := by
  intro m
  induction m with
  | nil => intro h; simp at h
  | cons p rest ih =>
    intro h
    obtain ⟨pk, pv⟩ := p
    by_cases hp : pk = k
    · simp [List.lookup_cons, hp]
    · have hb : (k == pk) = false := by
        simp only [beq_eq_false_iff_ne, ne_eq]
        intro he
        exact hp he.symm
      have hrest : rest.any (fun q => decide (q.1 = k)) = true := by
        simpa [List.any_cons, hp] using h
      simp only [List.map_cons, if_neg hp, List.lookup_cons, hb, cond_false]
      exact ih hrest

theorem lookup_append_single {α : Type} (k : String) (v : α) :
    ∀ m : List (String × α), ¬ m.any (fun p => p.1 = k) = true →
      (m ++ [(k, v)]).lookup k = some v := by
  intro m
  induction m with
  | nil => intro _; simp [List.lookup_cons]
  | cons p rest ih =>
    intro h
    obtain ⟨pk, pv⟩ := p
    have hp : ¬ pk = k := by
      intro he
      simp [List.any_cons, he] at h
    have hb : (k == pk) = false := by
      simp only [beq_eq_false_iff_ne, ne_eq]
      intro he
      exact hp he.symm
    have hrest : ¬ rest.any (fun q => decide (q.1 = k)) = true := by
      intro hr
      simp [List.any_cons, hr] at h
    simp only [List.cons_append, List.lookup_cons, hb, cond_false]
    exact ih hrest

theorem lookup_setKey {α : Type} (m : List (String × α)) (k : String) (v : α) :
    (setKey m k v).lookup k = some v := by
  rw [setKey]
  by_cases h : m.any (fun p => p.1 = k)
  · simp only [h, if_true]
    exact lookup_map_replace k v m h
  · simp only [h, if_false]
    exact lookup_append_single k v m h

theorem filter_join_perm :
    ∀ (keys : List String) (l : List PlanTask), keys.Nodup →
      (∀ t ∈ l, groupKey t ∈ keys) →
      ((keys.map (fun k => l.filter (fun t => groupKey t = k))).flatten).Perm l := by
  intro keys
  induction keys with
  | nil =>
    intro l _ hcov
    cases l with
    | nil => simp
    | cons t rest => exact absurd (hcov t (by simp)) (by simp)
  | cons k ks ih =>
    intro l hnd hcov
    have hk_not_mem : k ∉ ks := (List.nodup_cons.1 hnd).1
    have hmap : ks.map (fun k' => l.filter (fun t => groupKey t = k')) =
        ks.map (fun k' =>
          (l.filter (fun t => ¬ groupKey t = k)).filter (fun t => groupKey t = k')) := by
      apply List.map_congr_left
      intro k' hk'
      have hk'k : ¬ k' = k := fun he => hk_not_mem (he ▸ hk')
      rw [List.filter_filter]
      apply List.filter_congr
      intro t _
      by_cases hgt : groupKey t = k'
      · simp [hgt, hk'k]
      · simp [hgt]
    have hsub : ((ks.map (fun k' =>
        (l.filter (fun t => ¬ groupKey t = k)).filter
          (fun t => groupKey t = k'))).flatten).Perm
        (l.filter (fun t => ¬ groupKey t = k)) := by
      apply ih
      · exact (List.nodup_cons.1 hnd).2
      · intro t ht
        have hmem := List.mem_filter.1 ht
        have hne : ¬ groupKey t = k := by simpa using hmem.2
        have hin := hcov t hmem.1
        simp only [List.mem_cons] at hin
        rcases hin with he | hin
        · exact absurd he hne
        · exact hin
    simp only [List.map_cons, List.flatten_cons]
    rw [hmap]
    have h1 : (l.filter (fun t => groupKey t = k) ++
        (ks.map (fun k' =>
          (l.filter (fun t => ¬ groupKey t = k)).filter
            (fun t => groupKey t = k'))).flatten).Perm
        (l.filter (fun t => groupKey t = k) ++
          l.filter (fun t => ¬ groupKey t = k)) :=
      List.Perm.append_left _ hsub
    have h2 : (l.filter (fun t => groupKey t = k) ++
        l.filter (fun t => ¬ groupKey t = k)).Perm l := by
      have hcongr : l.filter (fun t => ¬ groupKey t = k) =
          l.filter (fun t => !(decide (groupKey t = k))) := by
        apply List.filter_congr
        intro t _
        by_cases hgt : groupKey t = k <;> simp [hgt]
      rw [hcongr]
      exact List.filter_append_perm _ l
    exact h1.trans h2

theorem groupReadyTasks_flatten_perm (ready : List PlanTask) :
    ((groupReadyTasks ready).flatten).Perm ready := by
  rw [groupReadyTasks]
  have hnodup : (((ready.map groupKey).dedup).insertionSort
      (fun a b => strLeB a b = true)).Nodup :=
    (List.perm_insertionSort _ _).nodup_iff.2 (List.nodup_dedup _)
  have hcov : ∀ t ∈ ready, groupKey t ∈
      ((ready.map groupKey).dedup).insertionSort (fun a b => strLeB a b = true) := by
    intro t ht
    exact (List.perm_insertionSort _ _).mem_iff.2
      (List.mem_dedup.2 (List.mem_map_of_mem _ ht))
  have hstep : ∀ ks : List String,
      ((ks.map (fun k => (ready.filter (fun t => groupKey t = k)).insertionSort
        (fun a b => strLeB a.task_id b.task_id = true))).flatten).Perm
      ((ks.map (fun k => ready.filter (fun t => groupKey t = k))).flatten) := by
    intro ks
    induction ks with
    | nil => simp
    | cons k ks ihk =>
      simp only [List.map_cons, List.flatten_cons]
      exact (List.perm_insertionSort _ _).append ihk
  exact (hstep _).trans (filter_join_perm _ ready hnodup hcov)

theorem groupReadyTasks_mem_char {ready : List PlanTask} {g : List PlanTask}
    (hg : g ∈ groupReadyTasks ready) :
    g ≠ [] ∧
    (∀ t ∈ g, t ∈ ready) ∧
    (∀ t ∈ g, ∀ u ∈ g, groupKey t = groupKey u) ∧
    List.Pairwise (fun a b => strLeB a.task_id b.task_id = true) g := by
  rw [groupReadyTasks] at hg
  obtain ⟨k, hk, hgk⟩ := List.mem_map.1 hg
  have hkmem : k ∈ (ready.map groupKey).dedup :=
    (List.perm_insertionSort _ _).subset hk
  have hmem_g : ∀ t ∈ g, t ∈ ready.filter (fun t => groupKey t = k) := by
    intro t ht
    rw [← hgk] at ht
    exact (List.perm_insertionSort _ _).subset ht
  have hkey : ∀ t ∈ g, groupKey t = k := by
    intro t ht
    have := List.mem_filter.1 (hmem_g t ht)
    simpa using this.2
  refine ⟨?_, ?_, ?_, ?_⟩
  · intro hnil
    obtain ⟨t, htr, htk⟩ := List.mem_map.1 (List.mem_dedup.1 hkmem)
    have : t ∈ ready.filter (fun t => groupKey t = k) :=
      List.mem_filter.2 ⟨htr, by simp [htk]⟩
    rw [← hgk] at hnil
    have hlen := List.Perm.length_eq (List.perm_insertionSort
      (fun a b => strLeB a.task_id b.task_id = true)
      (ready.filter (fun t => groupKey t = k)))
    rw [hnil] at hlen
    simp at hlen
    rw [List.eq_nil_of_length_eq_zero hlen.symm] at this
    simp at this
  · intro t ht
    exact (List.mem_filter.1 (hmem_g t ht)).1
  · intro t ht u hu
    rw [hkey t ht, hkey u hu]
  · rw [← hgk]
    have htot : IsTotal PlanTask (fun a b => strLeB a.task_id b.task_id = true) :=
      ⟨fun a b => strLeB_total a.task_id b.task_id⟩
    have htrans : IsTrans PlanTask (fun a b => strLeB a.task_id b.task_id = true) :=
      ⟨fun a b c hab hbc => strLeB_trans hab hbc⟩
    exact List.sorted_insertionSort _ _

theorem groupReadyTasks_keys_ascending (ready : List PlanTask) :
    List.Pairwise
      (fun g1 g2 => ∀ t ∈ g1, ∀ u ∈ g2,
        strLtB (groupKey t) (groupKey u) = true)
      (groupReadyTasks ready) := by
  rw [groupReadyTasks]
  have htot : IsTotal String (fun a b => strLeB a b = true) :=
    ⟨fun a b => strLeB_total a b⟩
  have htrans : IsTrans String (fun a b => strLeB a b = true) :=
    ⟨fun a b c hab hbc => strLeB_trans hab hbc⟩
  have hsorted : List.Pairwise (fun a b => strLeB a b = true)
      (((ready.map groupKey).dedup).insertionSort (fun a b => strLeB a b = true)) :=
    List.sorted_insertionSort _ _
  have hnodup : (((ready.map groupKey).dedup).insertionSort
      (fun a b => strLeB a b = true)).Nodup :=
    (List.perm_insertionSort _ _).nodup_iff.2 (List.nodup_dedup _)
  have hlt : List.Pairwise (fun a b => strLtB a b = true)
      (((ready.map groupKey).dedup).insertionSort (fun a b => strLeB a b = true)) := by
    have hcomb := hsorted.and hnodup
    apply hcomb.imp
    intro a b hab
    rw [strLtB, hab.1]
    have hne : (a == b) = false := by
      simp only [beq_eq_false_iff_ne, ne_eq]
      exact hab.2
    rw [hne]
    rfl
  rw [List.pairwise_map]
  refine hlt.imp ?_
  intro k1 k2 hk12
  intro t ht u hu
  have hkt : groupKey t = k1 := by
    have := List.mem_filter.1 ((List.perm_insertionSort _ _).subset ht)
    simpa using this.2
  have hku : groupKey u = k2 := by
    have := List.mem_filter.1 ((List.perm_insertionSort _ _).subset hu)
    simpa using this.2
  rw [hkt, hku]
  exact hk12

theorem execute_critical_scenario : execute envCrit planCrit = .ok outcomeCrit := by
  have e0 : execute envCrit planCrit =
      execLoop envCrit 3
        { pending := [geoTask0, weatherTask0, synthTask0], completed := [],
          results := [], records := [], stages := [] } := rfl
  have e1 := @execLoop_step envCrit 2
    { pending := [geoTask0, weatherTask0, synthTask0], completed := [],
      results := [], records := [], stages := [] }
    { pending := [weatherTask0, synthTask0], completed := ["geo_leg_0"],
      results := [("geo_leg_0", okResult)], records := [recGeoOk],
      stages := [["geo_leg_0"]] }
    (by decide) (by decide) (by decide)
  have e2 := @execLoop_halt envCrit 1
    { pending := [weatherTask0, synthTask0], completed := ["geo_leg_0"],
      results := [("geo_leg_0", okResult)], records := [recGeoOk],
      stages := [["geo_leg_0"]] }
    outcomeCrit
    (by decide) (by decide) (by decide)
  exact e0.trans (e1.trans e2)

theorem execute_noncritical_scenario : execute envNC planNC = .ok outcomeNC := by
  have e0 : execute envNC planNC =
      execLoop envNC 2
        { pending := [synthTaskNC, afterTask], completed := [], results := [],
          records := [], stages := [] } := rfl
  have e1 := @execLoop_step envNC 1
    { pending := [synthTaskNC, afterTask], completed := [], results := [],
      records := [], stages := [] }
    { pending := [afterTask], completed := ["synth_trip"], results := [],
      records := [recSynthFail], stages := [] }
    (by decide) (by decide) (by decide)
  have e2 := @execLoop_step envNC 0
    { pending := [afterTask], completed := ["synth_trip"], results := [],
      records := [recSynthFail], stages := [] }
    { pending := [], completed := ["synth_trip", "zz_after_synth"],
      results := [("zz_after_synth", okResult)],
      records := [recSynthFail, recAfterOk], stages := [["zz_after_synth"]] }
    (by decide) (by decide) (by decide)
  have e3 := @execLoop_done envNC 0
    { pending := [], completed := ["synth_trip", "zz_after_synth"],
      results := [("zz_after_synth", okResult)],
      records := [recSynthFail, recAfterOk], stages := [["zz_after_synth"]] }
    rfl
  exact e0.trans (e1.trans (e2.trans e3))

theorem execute_partial_group_scenario : execute envCrit planC9 = .ok outcomeC9 := by
  have e0 : execute envCrit planC9 =
      execLoop envCrit 2
        { pending := [weatherSibling, poiSibling], completed := [], results := [],
          records := [], stages := [] } := rfl
  have e1 := @execLoop_halt envCrit 1
    { pending := [weatherSibling, poiSibling], completed := [], results := [],
      records := [], stages := [] }
    outcomeC9
    (by decide) (by decide) (by decide)
  exact e0.trans e1

theorem execute_staged_scenario : execute envAll planC4 = .ok outcomeC4 := by
  have e0 : execute envAll planC4 =
      execLoop envAll 5
        { pending := [geoTask0, poiTask0, weatherTask0, transportTask01, synthTaskC4],
          completed := [], results := [], records := [], stages := [] } := rfl
  have e1 := @execLoop_step envAll 4
    { pending := [geoTask0, poiTask0, weatherTask0, transportTask01, synthTaskC4],
      completed := [], results := [], records := [], stages := [] }
    { pending := [poiTask0, weatherTask0, transportTask01, synthTaskC4],
      completed := ["geo_leg_0"], results := [("geo_leg_0", okResult)],
      records := [recGeoOk], stages := [["geo_leg_0"]] }
    (by decide) (by decide) (by decide)
  have e2 := @execLoop_step envAll 3
    { pending := [poiTask0, weatherTask0, transportTask01, synthTaskC4],
      completed := ["geo_leg_0"], results := [("geo_leg_0", okResult)],
      records := [recGeoOk], stages := [["geo_leg_0"]] }
    { pending := [transportTask01, synthTaskC4],
      completed := ["geo_leg_0", "poi_leg_0", "weather_leg_0"],
      results := [("geo_leg_0", okResult), ("poi_leg_0", okResult),
        ("weather_leg_0", okResult)],
      records := [recGeoOk, recPoiOk, recWeatherOk],
      stages := [["geo_leg_0"], ["poi_leg_0", "weather_leg_0"]] }
    (by decide) (by decide) (by decide)
  have e3 := @execLoop_step envAll 2
    { pending := [transportTask01, synthTaskC4],
      completed := ["geo_leg_0", "poi_leg_0", "weather_leg_0"],
      results := [("geo_leg_0", okResult), ("poi_leg_0", okResult),
        ("weather_leg_0", okResult)],
      records := [recGeoOk, recPoiOk, recWeatherOk],
      stages := [["geo_leg_0"], ["poi_leg_0", "weather_leg_0"]] }
    { pending := [synthTaskC4],
      completed := ["geo_leg_0", "poi_leg_0", "weather_leg_0", "transport_leg_0_1"],
      results := [("geo_leg_0", okResult), ("poi_leg_0", okResult),
        ("weather_leg_0", okResult), ("transport_leg_0_1", okResult)],
      records := [recGeoOk, recPoiOk, recWeatherOk, recTransportOk],
      stages := [["geo_leg_0"], ["poi_leg_0", "weather_leg_0"],
        ["transport_leg_0_1"]] }
    (by decide) (by decide) (by decide)
  have e4 := @execLoop_step envAll 1
    { pending := [synthTaskC4],
      completed := ["geo_leg_0", "poi_leg_0", "weather_leg_0", "transport_leg_0_1"],
      results := [("geo_leg_0", okResult), ("poi_leg_0", okResult),
        ("weather_leg_0", okResult), ("transport_leg_0_1", okResult)],
      records := [recGeoOk, recPoiOk, recWeatherOk, recTransportOk],
      stages := [["geo_leg_0"], ["poi_leg_0", "weather_leg_0"],
        ["transport_leg_0_1"]] }
    { pending := [],
      completed := ["geo_leg_0", "poi_leg_0", "weather_leg_0",
        "transport_leg_0_1", "synth_trip"],
      results := [("geo_leg_0", okResult), ("poi_leg_0", okResult),
        ("weather_leg_0", okResult), ("transport_leg_0_1", okResult),
        ("synth_trip", okResult)],
      records := [recGeoOk, recPoiOk, recWeatherOk, recTransportOk, recSynthOk],
      stages := [["geo_leg_0"], ["poi_leg_0", "weather_leg_0"],
        ["transport_leg_0_1"], ["synth_trip"]] }
    (by decide) (by decide) (by decide)
  have e5 := @execLoop_done envAll 1
    { pending := [],
      completed := ["geo_leg_0", "poi_leg_0", "weather_leg_0",
        "transport_leg_0_1", "synth_trip"],
      results := [("geo_leg_0", okResult), ("poi_leg_0", okResult),
        ("weather_leg_0", okResult), ("transport_leg_0_1", okResult),
        ("synth_trip", okResult)],
      records := [recGeoOk, recPoiOk, recWeatherOk, recTransportOk, recSynthOk],
      stages := [["geo_leg_0"], ["poi_leg_0", "weather_leg_0"],
        ["transport_leg_0_1"], ["synth_trip"]] }
    rfl
  exact e0.trans (e1.trans (e2.trans (e3.trans (e4.trans e5))))

/-- C3: when a task ultimately fails and its agent kind is in
`critical_agents` (default {geo, weather, poi, transport}), `execute` returns
immediately with status `clarification_needed`, a clarifying question that
contains the failed task id and its issue codes, and exactly the stages and
records accumulated up to that point; when the failing agent kind is not
critical, the task id is not added to the results map, no escalation occurs,
and execution continues with the remaining tasks to a terminal state.  The
two end-to-end scenarios exercise both sides on concrete plans. -/
theorem C3_escalation_rule :
    (∀ (env : ExecEnv) (st : ExecState) (stage_ids : List String)
       (task : PlanTask) (rest : List PlanTask) (issues : List Issue)
       (record : TaskExecutionRecord),
       executeTaskWithRetry env task = .fail issues record →
       task.agent ∈ env.critical_agents →
       processGroup env st stage_ids (task :: rest) =
         .inr { status := .clarification_needed, results := st.results,
                records := st.records ++ [record], stages := st.stages,
                clarifying_question := some (clarifyingQuestion task issues) } ∧
       clarifyingQuestion task issues =
         ("I need clarification because task " ++ quoteChar) ++ task.task_id ++
           (quoteChar ++ " failed (" ++
             String.intercalate ", " (issues.map Issue.code) ++ ").")) ∧
    (∀ (env : ExecEnv) (st : ExecState) (stage_ids : List String)
       (task : PlanTask) (rest : List PlanTask) (issues : List Issue)
       (record : TaskExecutionRecord),
       executeTaskWithRetry env task = .fail issues record →
       task.agent ∉ env.critical_agents →
       processGroup env st stage_ids (task :: rest) =
         processGroup env
           { st with
             records := st.records ++ [record],
             completed := addCompleted st.completed task.task_id,
             pending := erasePending st.pending task.task_id } stage_ids rest) ∧
    (∀ hs : Agent → Option Handler,
      ({ handlers := hs } : ExecEnv).critical_agents =
        [Agent.geo, Agent.weather, Agent.poi, Agent.transport]) ∧
    (execute envCrit planCrit = .ok outcomeCrit ∧
      outcomeCrit.status = .clarification_needed ∧
      outcomeCrit.clarifying_question =
        some (clarifyingQuestion weatherTask0 [Issue.schema_invalid])) ∧
    (execute envNC planNC = .ok outcomeNC ∧ outcomeNC.status = .completed ∧
      "synth_trip" ∉ outcomeNC.results.map Prod.fst) := by
  refine ⟨?_, ?_, fun _ => rfl, ⟨execute_critical_scenario, rfl, rfl⟩,
    ⟨execute_noncritical_scenario, rfl, by decide⟩⟩
  · intro env st stage_ids task rest issues record hf hc
    refine ⟨processGroup_fail_critical env st stage_ids rest hf hc, ?_⟩
    simp [clarifyingQuestion, String.append_assoc]
  · intro env st stage_ids task rest issues record hf hc
    exact processGroup_fail_noncritical env st stage_ids rest hf hc

/-- Witness for C3 at a concrete critically failing weather task. -/
theorem C3_escalation_rule_witness :
    processGroup envCrit
      { pending := [weatherSibling], completed := [], results := [],
        records := [], stages := [] } [] [weatherSibling] =
      .inr { status := .clarification_needed, results := [],
             records := [recWeatherSiblingFail], stages := [],
             clarifying_question :=
               some (clarifyingQuestion weatherSibling [Issue.schema_invalid]) } ∧
    clarifyingQuestion weatherSibling [Issue.schema_invalid] =
      ("I need clarification because task " ++ quoteChar) ++ "bb_weather" ++
        (quoteChar ++ " failed (" ++
          String.intercalate ", " ([Issue.schema_invalid].map Issue.code) ++
          ").") :=
  C3_escalation_rule.1 envCrit
    { pending := [weatherSibling], completed := [], results := [], records := [],
      stages := [] }
    [] weatherSibling [] [Issue.schema_invalid] recWeatherSiblingFail
    (by decide) (by decide)

/-- C9: if a critical task fails in a group in which an earlier sibling
already succeeded in the same pass, the `clarification_needed` outcome
contains the sibling's result in the results map (and its record), but no
stage entry is appended for the partially completed group: the partial
group's successes appear in results and records but not in stages.  The
concrete scenario shows this end to end. -/
theorem C9_partial_group :
    (∀ (env : ExecEnv) (st : ExecState) (stage_ids : List String)
       (t1 t2 : PlanTask) (rest : List PlanTask) (r1 : StandardAgentResult)
       (rec1 : TaskExecutionRecord) (issues : List Issue)
       (rec2 : TaskExecutionRecord),
       executeTaskWithRetry env t1 = .ok r1 rec1 →
       executeTaskWithRetry env t2 = .fail issues rec2 →
       t2.agent ∈ env.critical_agents →
       processGroup env st stage_ids (t1 :: t2 :: rest) =
         .inr { status := .clarification_needed,
                results := setKey st.results t1.task_id r1,
                records := st.records ++ [rec1, rec2],
                stages := st.stages,
                clarifying_question := some (clarifyingQuestion t2 issues) } ∧
       (setKey st.results t1.task_id r1).lookup t1.task_id = some r1) ∧
    (execute envCrit planC9 = .ok outcomeC9 ∧
      outcomeC9.stages = [] ∧
      outcomeC9.results.lookup "aa_poi" = some okResult ∧
      (∃ rec ∈ outcomeC9.records, rec.task_id = "aa_poi" ∧ rec.success = true)) := by
  refine ⟨?_, execute_partial_group_scenario, rfl, by decide, ?_⟩
  · intro env st stage_ids t1 t2 rest r1 rec1 issues rec2 h1 h2 hc
    refine ⟨?_, lookup_setKey st.results t1.task_id r1⟩
    rw [processGroup_ok env st stage_ids (t2 :: rest) h1]
    rw [processGroup_fail_critical env _ _ rest h2 hc]
    simp [List.append_assoc]
  · exact ⟨recPoiSiblingOk, by decide, by decide, by decide⟩

/-- Witness for C9 on a concrete two-sibling group. -/
theorem C9_partial_group_witness :
    processGroup envCrit
      { pending := [weatherSibling, poiSibling], completed := [], results := [],
        records := [], stages := [] } [] [poiSibling, weatherSibling] =
      .inr { status := .clarification_needed,
             results := setKey [] "aa_poi" okResult,
             records := [recPoiSiblingOk, recWeatherSiblingFail],
             stages := [],
             clarifying_question :=
               some (clarifyingQuestion weatherSibling [Issue.schema_invalid]) } ∧
    (setKey ([] : List (String × StandardAgentResult)) "aa_poi"
        okResult).lookup "aa_poi" = some okResult :=
  C9_partial_group.1 envCrit
    { pending := [weatherSibling, poiSibling], completed := [], results := [],
      records := [], stages := [] }
    [] poiSibling weatherSibling [] okResult recPoiSiblingOk
    [Issue.schema_invalid] recWeatherSiblingFail
    (by decide) (by decide) (by decide)

theorem mem_addCompleted (completed : List String) (id : String) :
    id ∈ addCompleted completed id := by
  rw [addCompleted]
  by_cases h : id ∈ completed
  · simp [h]
  · simp [h]

/-- C10: when a non-critical task ultimately fails, the executor adds its
task id to the completed set and leaves the results map unchanged, so any
pending task all of whose dependencies are completed is in the next ready
set; a non-critical failure never blocks its dependents, as the concrete
scenario (a task depending on the failed synth task is still executed and
the run completes) shows end to end. -/
theorem C10_noncritical_unblocks :
    (∀ (env : ExecEnv) (st : ExecState) (stage_ids : List String)
       (task : PlanTask) (rest : List PlanTask) (issues : List Issue)
       (record : TaskExecutionRecord),
       executeTaskWithRetry env task = .fail issues record →
       task.agent ∉ env.critical_agents →
       ∃ st' : ExecState,
         processGroup env st stage_ids (task :: rest) =
           processGroup env st' stage_ids rest ∧
         task.task_id ∈ st'.completed ∧
         st'.completed = addCompleted st.completed task.task_id ∧
         st'.results = st.results ∧
         st'.pending = erasePending st.pending task.task_id ∧
         st'.records = st.records ++ [record]) ∧
    (∀ (st : ExecState) (t : PlanTask), t ∈ st.pending →
       (∀ d ∈ t.depends_on, d ∈ st.completed) → t ∈ readyTasks st) ∧
    (execute envNC planNC = .ok outcomeNC ∧
      outcomeNC.status = .completed ∧
      outcomeNC.results.lookup "zz_after_synth" = some okResult ∧
      (∃ rec ∈ outcomeNC.records, rec.task_id = "zz_after_synth" ∧
        rec.success = true)) := by
  refine ⟨?_, ?_, execute_noncritical_scenario, rfl, by decide, ?_⟩
  · intro env st stage_ids task rest issues record hf hc
    refine ⟨{ st with
              records := st.records ++ [record],
              completed := addCompleted st.completed task.task_id,
              pending := erasePending st.pending task.task_id },
            processGroup_fail_noncritical env st stage_ids rest hf hc,
            mem_addCompleted st.completed task.task_id, rfl, rfl, rfl, rfl⟩
  · intro st t ht hd
    rw [readyTasks]
    refine List.mem_filter.2 ⟨ht, ?_⟩
    rw [List.all_eq_true]
    intro d hdm
    simpa using hd d hdm
  · exact ⟨recAfterOk, by decide, by decide, by decide⟩

/-- Witness for C10 at the concrete failing synth task. -/
theorem C10_noncritical_unblocks_witness :
    ∃ st' : ExecState,
      processGroup envNC
        { pending := [synthTaskNC, afterTask], completed := [], results := [],
          records := [], stages := [] } [] [synthTaskNC] =
        processGroup envNC st' [] [] ∧
      "synth_trip" ∈ st'.completed ∧
      st'.completed = addCompleted [] "synth_trip" ∧
      st'.results = [] ∧
      st'.pending = erasePending [synthTaskNC, afterTask] "synth_trip" ∧
      st'.records = [] ++ [recSynthFail] :=
  C10_noncritical_unblocks.1 envNC
    { pending := [synthTaskNC, afterTask], completed := [], results := [],
      records := [], stages := [] }
    [] synthTaskNC [] [Issue.schema_invalid] recSynthFail
    (by decide) (by decide)

/-- C4 (amended): every scheduling pass partitions the ready tasks into
groups (tasks sharing a non-empty `parallel_group` tag form one group;
ungrouped tasks form singleton groups whose group key is `solo:` followed by
their own task id, not the bare task id as the claim states), processes
groups in ascending lexicographic order of group key and tasks within a
group in ascending lexicographic order of task id, and appends a stage entry
only for a group with at least one successful task, containing exactly that
group's successful task ids in the per-group order; for the concrete plan
{geo_leg_0} -> {poi_leg_0, weather_leg_0} -> {transport_leg_0_1} ->
{synth_trip} with all-succeeding handlers, the stages are exactly
[[geo_leg_0], [poi_leg_0, weather_leg_0], [transport_leg_0_1],
[synth_trip]]. -/
theorem C4_grouping_and_stages :
    (∀ ready : List PlanTask, ((groupReadyTasks ready).flatten).Perm ready) ∧
    (∀ ready : List PlanTask,
      List.Pairwise
        (fun g1 g2 => ∀ t ∈ g1, ∀ u ∈ g2,
          strLtB (groupKey t) (groupKey u) = true)
        (groupReadyTasks ready)) ∧
    (∀ (ready : List PlanTask) (g : List PlanTask), g ∈ groupReadyTasks ready →
      g ≠ [] ∧ (∀ t ∈ g, t ∈ ready) ∧
      (∀ t ∈ g, ∀ u ∈ g, groupKey t = groupKey u) ∧
      List.Pairwise (fun a b => strLeB a.task_id b.task_id = true) g) ∧
    (∀ (env : ExecEnv) (group : List PlanTask) (st st' : ExecState),
      processGroup env st [] group = .inl st' →
      st'.stages = st.stages ++
        (if (group.filter (fun t => (executeTaskWithRetry env t).success)).map
             PlanTask.task_id = [] then []
         else [(group.filter
             (fun t => (executeTaskWithRetry env t).success)).map
             PlanTask.task_id])) ∧
    (execute envAll planC4 = .ok outcomeC4 ∧
      outcomeC4.stages = [["geo_leg_0"], ["poi_leg_0", "weather_leg_0"],
        ["transport_leg_0_1"], ["synth_trip"]]) := by
  refine ⟨groupReadyTasks_flatten_perm, groupReadyTasks_keys_ascending,
    fun ready g hg => groupReadyTasks_mem_char hg, ?_,
    execute_staged_scenario, rfl⟩
  intro env group st st' h
  have hst := processGroup_stages_eq env group st [] st' h
  simp only [List.nil_append] at hst
  exact hst

/-- Witness for C4 on the concrete two-sibling ready set. -/
theorem C4_grouping_and_stages_witness :
    [poiSibling, weatherSibling] ≠ ([] : List PlanTask) ∧
    (∀ t ∈ [poiSibling, weatherSibling], t ∈ [weatherSibling, poiSibling]) ∧
    (∀ t ∈ [poiSibling, weatherSibling], ∀ u ∈ [poiSibling, weatherSibling],
      groupKey t = groupKey u) ∧
    List.Pairwise (fun a b => strLeB a.task_id b.task_id = true)
      [poiSibling, weatherSibling] :=
  C4_grouping_and_stages.2.2.1 [weatherSibling, poiSibling]
    [poiSibling, weatherSibling] (by decide)

/-- Counterexample to C4 as stated: for the ready set with the ungrouped
task b and the task z tagged with parallel group m, the claimed group key of
b (its bare task id) is lexicographically smaller than that of z, yet the
implementation processes the group of z first, because the implemented solo
key is solo:b, which sorts after m; moreover a task whose parallel group tag
is the empty string (a falsy value in Python) also falls back to the solo
key rather than forming a group keyed by its tag. -/
theorem C4_grouping_counterexample :
    groupReadyTasks [soloTaskB, groupedTaskZ] = [[groupedTaskZ], [soloTaskB]] ∧
    strLtB (claimedGroupKey soloTaskB) (claimedGroupKey groupedTaskZ) = true ∧
    groupKey soloTaskB = "solo:b" ∧
    groupKey emptyTagTask = "solo:e" := by
  refine ⟨by decide, by decide, by decide, by decide⟩

theorem evictIfNeeded_length {α : Type} (m : Nat) :
    ∀ items : List (String × CacheItem α), (evictIfNeeded m items).length ≤ m := by
  intro items
  induction items with
  | nil => simp [evictIfNeeded]
  | cons x xs ih =>
    rw [evictIfNeeded]
    by_cases h : m < xs.length + 1
    · simpa [h] using ih
    · simp only [h, if_false]
      simp only [List.length_cons]
      omega

theorem lookup_eraseKey_self {α : Type} (key : String) :
    ∀ items : List (String × CacheItem α), (items.map Prod.fst).Nodup →
      (eraseKey items key).lookup key = none := by
  intro items
  induction items with
  | nil => intro _; simp [eraseKey]
  | cons p rest ih =>
    intro hnd
    obtain ⟨pk, pv⟩ := p
    simp only [List.map_cons, List.nodup_cons] at hnd
    by_cases hp : pk = key
    · rw [eraseKey, List.eraseP_cons]
      simp only [hp, decide_True, if_true]
      rw [List.lookup_eq_none_iff]
      intro p hp2
      subst hp
      have hne : p.1 ≠ pk := by
        intro he
        exact hnd.1 (List.mem_map.2 ⟨p, hp2, he⟩)
      simp only [bne_iff_ne, ne_eq]
      intro he
      exact hne he.symm
    · rw [eraseKey, List.eraseP_cons]
      have hb : (decide (pk = key)) = false := by simp [hp]
      simp only [hb]
      have hb2 : (key == pk) = false := by
        simp only [beq_eq_false_iff_ne, ne_eq]
        intro he
        exact hp he.symm
      simp only [List.lookup_cons, hb2, cond_false]
      exact ih hnd.2

theorem eraseKey_length_le {α : Type} (items : List (String × CacheItem α))
    (key : String) : (eraseKey items key).length ≤ items.length :=
  (List.eraseP_sublist items).length_le

/-- C7: `MemoryCache.get` returns the stored value iff an entry for the key
exists with `expires_at` strictly greater than the clock; a hit moves the
entry to the most-recently-used position, an expired entry is removed and
not-found is returned; `MemoryCache.set` with non-positive TTL deletes any
existing entry and stores nothing, while with positive TTL it stores the
entry with `expires_at = now + ttl` at the most-recently-used position,
replacing any existing entry, and evicts least-recently-used entries while
the size exceeds `max_size`, so after every positive-TTL set the cache holds
at most `max_size` entries (and a delete-set never grows the cache). -/
theorem C7_memory_cache {α : Type} :
    (∀ (c : MemoryCache α) (now : ℚ) (key : String) (v : α),
      (c.get now key).1 = some v ↔
        ∃ e : ℚ, c.items.lookup key = some ⟨v, e⟩ ∧ now < e) ∧
    (∀ (c : MemoryCache α) (now : ℚ) (key : String) (it : CacheItem α),
      c.items.lookup key = some it → now < it.expires_at →
      c.get now key =
        (some it.value, { c with items := eraseKey c.items key ++ [(key, it)] })) ∧
    (∀ (c : MemoryCache α) (now : ℚ) (key : String) (it : CacheItem α),
      c.items.lookup key = some it → it.expires_at ≤ now →
      c.get now key = (none, { c with items := eraseKey c.items key }) ∧
      ((c.items.map Prod.fst).Nodup →
        ((c.get now key).2.items.lookup key = none))) ∧
    (∀ (c : MemoryCache α) (now : ℚ) (key : String),
      c.items.lookup key = none → c.get now key = (none, c)) ∧
    (∀ (c : MemoryCache α) (now : ℚ) (key : String) (v : α) (ttl : ℚ),
      ttl ≤ 0 →
      c.set now key v ttl = { c with items := eraseKey c.items key } ∧
      ((c.items.map Prod.fst).Nodup →
        (c.set now key v ttl).items.lookup key = none) ∧
      (c.set now key v ttl).items.length ≤ c.items.length) ∧
    (∀ (c : MemoryCache α) (now : ℚ) (key : String) (v : α) (ttl : ℚ),
      0 < ttl →
      c.set now key v ttl = { c with items := evictIfNeeded c.max_size (eraseKey c.items key ++ [(key, ⟨v, now + ttl⟩)]) } ∧
      (c.set now key v ttl).items.length ≤ c.max_size) := by
  refine ⟨?_, ?_, ?_, ?_, ?_, ?_⟩
  · intro c now key v
    rw [MemoryCache.get]
    cases hl : c.items.lookup key with
    | none => simp
    | some it =>
      by_cases he : it.expires_at ≤ now
      · simp only [he, if_true]
        constructor
        · intro h
          simp at h
        · rintro ⟨e, hsome, hlt⟩
          cases Option.some.inj hsome
          exact absurd he (by simpa using hlt)
      · simp only [he, if_false]
        constructor
        · intro h
          simp only [Option.some.injEq] at h
          exact ⟨it.expires_at, by rw [← h], by simpa using he⟩
        · rintro ⟨e, hsome, hlt⟩
          cases Option.some.inj hsome
          rfl
  · intro c now key it hl hlt
    rw [MemoryCache.get, hl]
    have he : ¬ it.expires_at ≤ now := by simpa using hlt
    simp only [he, if_false]
    rw [moveToEnd, hl]
  · intro c now key it hl he
    have hget : c.get now key = (none, { c with items := eraseKey c.items key }) := by
      rw [MemoryCache.get, hl]
      simp only [he, if_true]
    refine ⟨hget, ?_⟩
    intro hnd
    rw [hget]
    exact lookup_eraseKey_self key c.items hnd
  · intro c now key hl
    rw [MemoryCache.get, hl]
  · intro c now key v ttl httl
    have hset : c.set now key v ttl = { c with items := eraseKey c.items key } := by
      rw [MemoryCache.set]
      simp [httl]
    refine ⟨hset, ?_, ?_⟩
    · intro hnd
      rw [hset]
      exact lookup_eraseKey_self key c.items hnd
    · rw [hset]
      exact eraseKey_length_le c.items key
  · intro c now key v ttl httl
    have hn : ¬ ttl ≤ 0 := by simpa using httl
    have hset : c.set now key v ttl = { c with items := evictIfNeeded c.max_size (eraseKey c.items key ++ [(key, ⟨v, now + ttl⟩)]) } := by
      rw [MemoryCache.set]
      simp [hn]
    refine ⟨hset, ?_⟩
    rw [hset]
    exact evictIfNeeded_length c.max_size _

/-- Witness for C7: the spec's TTL example (a 10-second entry is not found
at t = 10.1 and is purged) and LRU example (capacity 2: insert a and b, read
a, insert c, then b is evicted and a and c remain). -/
theorem C7_memory_cache_witness :
    ((⟨256, []⟩ : MemoryCache String).set 0 "k" "v" 10).get (mkRat 101 10) "k" =
      (none, ⟨256, []⟩) ∧
    (((((⟨2, []⟩ : MemoryCache String).set 0 "a" "va" 100).set 1 "b" "vb"
        100).get 2 "a").2.set 3 "c" "vc" 100).items.map Prod.fst =
      ["a", "c"] := by
  constructor
  · have hl : (((⟨256, []⟩ : MemoryCache String).set 0 "k" "v" 10).items.lookup
        "k") = some ⟨"v", (10 : ℚ)⟩ := by
      with_unfolding_all decide
    have he : (⟨"v", (10 : ℚ)⟩ : CacheItem String).expires_at ≤ mkRat 101 10 := by
      with_unfolding_all decide
    have h3 := (C7_memory_cache.2.2.1
      ((⟨256, []⟩ : MemoryCache String).set 0 "k" "v" 10) (mkRat 101 10) "k"
      ⟨"v", (10 : ℚ)⟩ hl he).1
    rw [h3]
    with_unfolding_all decide
  · with_unfolding_all decide

/-- C8: `RateLimiter.allow` first refills the bucket by elapsed seconds
times the rate, capped at capacity, updating the last-refill stamp, then
subtracts exactly the cost and returns true when enough tokens exist, and
returns false consuming nothing otherwise; `RateLimiter.wait_time` refills
the same way and returns 0 when enough tokens exist and
`(cost - tokens) / rate` otherwise; concretely with capacity 2 and rate 1/s,
two allows succeed, the third fails with wait_time 1.0, and after the clock
advances one second allow succeeds again. -/
theorem C8_rate_limiter :
    (∀ (l : RateLimiter) (now : ℚ),
      l.refill now =
        { l with
          last_refill := now,
          tokens := min l.capacity (l.tokens + max 0 (now - l.last_refill) * l.rate_per_second) }) ∧
    (∀ (l : RateLimiter) (now cost : ℚ), 0 < cost →
      (cost ≤ (l.refill now).tokens →
        l.allow now cost =
          some (true, { l.refill now with tokens := (l.refill now).tokens - cost })) ∧
      ((l.refill now).tokens < cost →
        l.allow now cost = some (false, l.refill now))) ∧
    (∀ (l : RateLimiter) (now cost : ℚ), 0 < cost →
      (cost ≤ (l.refill now).tokens →
        l.wait_time now cost = some (0, l.refill now)) ∧
      ((l.refill now).tokens < cost →
        l.wait_time now cost =
          some ((cost - (l.refill now).tokens) / l.rate_per_second, l.refill now))) ∧
    (RateLimiter.make 1 2 0 = some ⟨1, 2, 2, 0⟩ ∧
      (⟨1, 2, 2, 0⟩ : RateLimiter).allow 0 1 = some (true, ⟨1, 2, 1, 0⟩) ∧
      (⟨1, 2, 1, 0⟩ : RateLimiter).allow 0 1 = some (true, ⟨1, 2, 0, 0⟩) ∧
      (⟨1, 2, 0, 0⟩ : RateLimiter).allow 0 1 = some (false, ⟨1, 2, 0, 0⟩) ∧
      (⟨1, 2, 0, 0⟩ : RateLimiter).wait_time 0 1 = some (1, ⟨1, 2, 0, 0⟩) ∧
      (⟨1, 2, 0, 0⟩ : RateLimiter).allow 1 1 = some (true, ⟨1, 2, 0, 1⟩)) := by
  refine ⟨fun l now => rfl, ?_, ?_, ?_⟩
  · intro l now cost hc
    have hcn : ¬ cost ≤ 0 := by simpa using hc
    constructor
    · intro hle
      rw [RateLimiter.allow]
      simp only [hcn, if_false]
      simp only [hle, if_true]
    · intro hlt
      have hnle : ¬ cost ≤ (l.refill now).tokens := by simpa using hlt
      rw [RateLimiter.allow]
      simp only [hcn, if_false]
      simp only [hnle, if_false]
  · intro l now cost hc
    have hcn : ¬ cost ≤ 0 := by simpa using hc
    constructor
    · intro hle
      rw [RateLimiter.wait_time]
      simp only [hcn, if_false]
      simp only [hle, if_true]
    · intro hlt
      have hnle : ¬ cost ≤ (l.refill now).tokens := by simpa using hlt
      rw [RateLimiter.wait_time]
      simp only [hcn, if_false]
      simp only [hnle, if_false]
      rfl
  · refine ⟨?_, ?_, ?_, ?_, ?_, ?_⟩ <;> with_unfolding_all decide

/-- Witness for C8 at the concrete capacity-2 limiter. -/
theorem C8_rate_limiter_witness :
    (⟨1, 2, 2, 0⟩ : RateLimiter).allow 0 1 =
      some (true,
        { (⟨1, 2, 2, 0⟩ : RateLimiter).refill 0 with
          tokens := ((⟨1, 2, 2, 0⟩ : RateLimiter).refill 0).tokens - 1 }) :=
  ((C8_rate_limiter.2.1 ⟨1, 2, 2, 0⟩ 0 1 (by decide)).1
    (by with_unfolding_all decide))

theorem toDigitsCore_eq_natDigits :
    ∀ (fuel n : Nat) (acc : List Char), n < fuel →
      Nat.toDigitsCore 10 fuel n acc = natDigits n ++ acc := by
  intro fuel
  induction fuel with
  | zero => intro n acc h; omega
  | succ f ih =>
    intro n acc h
    rw [Nat.toDigitsCore]
    by_cases hz : n / 10 = 0
    · have hn : n < 10 := by omega
      have hmod : n % 10 = n := Nat.mod_eq_of_lt hn
      rw [natDigits]
      simp [hz, hn, hmod]
    · have hn : ¬ n < 10 := by
        intro hlt
        exact hz (Nat.div_eq_of_lt hlt)
      simp only [hz, if_false]
      rw [ih (n / 10) _ (by omega)]
      conv_rhs => rw [natDigits]
      simp [hn]

theorem repr_eq_natDigits (n : Nat) : Nat.repr n = (natDigits n).asString := by
  rw [Nat.repr, Nat.toDigits, toDigitsCore_eq_natDigits (n + 1) n [] (by omega)]
  simp

theorem digitChar_toNat (d : Nat) (h : d < 10) :
    (Nat.digitChar d).toNat = 48 + d := by
  interval_cases d <;> rfl

theorem natDigits_foldl (n : Nat) :
    ∀ a : Nat, (natDigits n).foldl (fun a c => 10 * a + (c.toNat - 48)) a =
      a * 10 ^ (natDigits n).length + n := by
  induction n using Nat.strong_induction_on with
  | _ n ih =>
    intro a
    by_cases h : n < 10
    · rw [natDigits]
      simp only [h, dif_pos]
      simp [List.foldl, digitChar_toNat n h]
      omega
    · rw [natDigits]
      simp only [h, dif_neg, dite_false]
      rw [List.foldl_append]
      have hrec := ih (n / 10) (Nat.div_lt_self (by omega) (by omega)) a
      rw [hrec]
      simp only [List.foldl]
      rw [digitChar_toNat (n % 10) (Nat.mod_lt n (by omega))]
      simp only [List.length_append, List.length_cons, List.length_nil]
      have hpow : 10 ^ ((natDigits (n / 10)).length + 1) =
          10 ^ (natDigits (n / 10)).length * 10 := by
        rw [Nat.pow_succ]
      rw [hpow]
      have hdm := Nat.div_add_mod n 10
      ring_nf
      omega

theorem natDigits_inj {m n : Nat} (h : natDigits m = natDigits n) : m = n := by
  have hm := natDigits_foldl m 0
  have hn := natDigits_foldl n 0
  rw [h] at hm
  simp at hm hn
  omega

theorem repr_inj_nat {m n : Nat} (h : Nat.repr m = Nat.repr n) : m = n := by
  rw [repr_eq_natDigits, repr_eq_natDigits] at h
  have hd : natDigits m = natDigits n := by
    have := congrArg String.data h
    simpa [List.asString] using this
  exact natDigits_inj hd

theorem natDigits_isDigit : ∀ n : Nat, ∀ c ∈ natDigits n, 48 ≤ c.toNat ∧ c.toNat ≤ 57 := by
  intro n
  induction n using Nat.strong_induction_on with
  | _ n ih =>
    intro c hc
    by_cases h : n < 10
    · rw [natDigits] at hc
      simp only [h, dif_pos] at hc
      simp only [List.mem_singleton] at hc
      subst hc
      rw [digitChar_toNat n h]
      omega
    · rw [natDigits] at hc
      simp only [h, dif_neg, dite_false] at hc
      rw [List.mem_append] at hc
      rcases hc with hc | hc
      · exact ih (n / 10) (Nat.div_lt_self (by omega) (by omega)) c hc
      · simp only [List.mem_singleton] at hc
        subst hc
        rw [digitChar_toNat (n % 10) (Nat.mod_lt n (by omega))]
        omega

theorem repr_no_underscore (n : Nat) : ∀ c ∈ (Nat.repr n).data, c ≠ '_' := by
  intro c hc
  rw [repr_eq_natDigits] at hc
  have hd : c ∈ natDigits n := by simpa [List.asString] using hc
  have := natDigits_isDigit n c hd
  intro he
  subst he
  revert this
  decide

theorem str_ne_of_head {a b : String} {c1 c2 : Char}
    (ha : a.data.head? = some c1) (hb : b.data.head? = some c2)
    (hne : c1 ≠ c2) : a ≠ b := by
  intro he
  rw [he] at ha
  rw [ha] at hb
  exact hne (Option.some.inj hb)

theorem head_append {p s : String} {c : Char}
    (hp : p.data.head? = some c) : (p ++ s).data.head? = some c := by
  rw [String.data_append]
  cases hd : p.data with
  | nil => rw [hd] at hp; simp at hp
  | cons x xs =>
    rw [hd] at hp
    simp only [List.head?] at hp
    simp [List.cons_append, List.head?, hp]

theorem geoId_head (i : Nat) : (geoId i).data.head? = some 'g' :=
  head_append rfl

theorem weatherId_head (i : Nat) : (weatherId i).data.head? = some 'w' :=
  head_append rfl

theorem poiId_head (i : Nat) : (poiId i).data.head? = some 'p' :=
  head_append rfl

theorem transportId_head (i : Nat) : (transportId i).data.head? = some 't' :=
  head_append (head_append (head_append rfl))

theorem synthId_head : ("synth_trip" : String).data.head? = some 's' := rfl

theorem append_repr_inj {p : String} {i j : Nat}
    (h : p ++ Nat.repr i = p ++ Nat.repr j) : i = j := by
  have hd := congrArg String.data h
  rw [String.data_append, String.data_append] at hd
  have hr : (Nat.repr i).data = (Nat.repr j).data :=
    List.append_cancel_left hd
  exact repr_inj_nat (String.ext hr)

theorem geoId_inj {i j : Nat} (h : geoId i = geoId j) : i = j :=
  append_repr_inj h

theorem weatherId_inj {i j : Nat} (h : weatherId i = weatherId j) : i = j :=
  append_repr_inj h

theorem poiId_inj {i j : Nat} (h : poiId i = poiId j) : i = j :=
  append_repr_inj h

theorem no_underscore_split :
    ∀ (d1 e1 s t : List Char), (∀ c ∈ d1, c ≠ '_') → (∀ c ∈ e1, c ≠ '_') →
      d1 ++ '_' :: s = e1 ++ '_' :: t → d1 = e1 ∧ s = t := by
  intro d1
  induction d1 with
  | nil =>
    intro e1 s t _ he1 h
    cases e1 with
    | nil => simpa using h
    | cons y ys =>
      simp only [List.nil_append, List.cons_append, List.cons.injEq] at h
      exact absurd h.1.symm (he1 y (by simp))
  | cons x xs ih =>
    intro e1 s t hd1 he1 h
    cases e1 with
    | nil =>
      simp only [List.cons_append, List.nil_append, List.cons.injEq] at h
      exact absurd h.1 (hd1 x (by simp))
    | cons y ys =>
      simp only [List.cons_append, List.cons.injEq] at h
      obtain ⟨hxy, hrest⟩ := h
      have := ih ys s t (fun c hc => hd1 c (by simp [hc]))
        (fun c hc => he1 c (by simp [hc])) hrest
      exact ⟨by rw [hxy, this.1], this.2⟩

theorem transportId_inj {i j : Nat} (h : transportId i = transportId j) :
    i = j := by
  have hd := congrArg String.data h
  rw [transportId, transportId] at hd
  simp only [String.data_append] at hd
  have hassoc : ∀ (a b : List Char) (r : List Char),
      ((a ++ b) ++ ['_']) ++ r = a ++ (b ++ '_' :: r) := by
    intro a b r
    simp [List.append_assoc]
  rw [hassoc, hassoc] at hd
  have hcanc : (Nat.repr (i - 1)).data ++ '_' :: (Nat.repr i).data =
      (Nat.repr (j - 1)).data ++ '_' :: (Nat.repr j).data :=
    List.append_cancel_left hd
  have hsplit := no_underscore_split _ _ _ _
    (repr_no_underscore (i - 1)) (repr_no_underscore (j - 1)) hcanc
  exact repr_inj_nat (String.ext hsplit.2)

theorem processLeg_eq (st : PlannerState) (idx : Nat) (leg : TripLeg)
    (hgeo : st.leg_geo_task.lookup idx = none)
    (hw : 0 < idx → st.leg_weather_task.lookup (idx - 1) = some (weatherId (idx - 1)))
    (hp : 0 < idx → st.leg_poi_task.lookup (idx - 1) = some (poiId (idx - 1))) :
    processLeg st idx leg =
      { tasks := st.tasks ++ blockFor idx leg.geo.isNone,
        leg_geo_task :=
          (if leg.geo.isNone then [(idx, geoId idx)] else []) ++ st.leg_geo_task,
        leg_weather_task := (idx, weatherId idx) :: st.leg_weather_task,
        leg_poi_task := (idx, poiId idx) :: st.leg_poi_task,
        transport_task_ids := st.transport_task_ids ++
          (if 0 < idx then [transportId idx] else []) } := by
  cases hg : leg.geo with
  | none =>
    have hlook : ((idx, geoId idx) :: st.leg_geo_task).lookup idx =
        some (geoId idx) := by
      simp [List.lookup_cons]
    by_cases hidx : 0 < idx
    · simp only [processLeg, hg, Option.isNone_none, blockFor, hidx, if_true,
        hlook, Option.isSome_some, dictGet, hw hidx, hp hidx,
        Option.getD_some]
      simp [geoTaskAt, transportTaskAt, weatherTaskAt, poiTaskAt, geoId,
        weatherId, poiId, transportId, legsRef, List.append_assoc]
    · simp only [processLeg, hg, Option.isNone_none, blockFor, hidx, if_false,
        hlook, Option.isSome_some, dictGet, Option.getD_some]
      simp [geoTaskAt, weatherTaskAt, poiTaskAt, geoId, weatherId, poiId,
        legsRef, List.append_assoc]
  | some gp =>
    have hns : (st.leg_geo_task.lookup idx).isSome = false := by
      rw [hgeo]
      rfl
    by_cases hidx : 0 < idx
    · simp only [processLeg, hg, Option.isNone_some, blockFor, hidx, if_true,
        hns, dictGet, hw hidx, hp hidx, Option.getD_some]
      simp [transportTaskAt, weatherTaskAt, poiTaskAt, weatherId, poiId,
        transportId, legsRef, List.append_assoc]
    · simp only [processLeg, hg, Option.isNone_some, blockFor, hidx, if_false,
        hns, dictGet, Option.getD_some]
      simp [weatherTaskAt, poiTaskAt, weatherId, poiId, legsRef,
        List.append_assoc]

theorem lookup_cons_ne {β : Type} {k k' : Nat} (v : β) (l : List (Nat × β))
    (h : ¬ k = k') : ((k', v) :: l).lookup k = l.lookup k := by
  have hb : (k == k') = false := by
    simp only [beq_eq_false_iff_ne, ne_eq]
    exact h
  simp [List.lookup_cons, hb]

theorem processLegs_char :
    ∀ (legs : List TripLeg) (idx : Nat) (st : PlannerState),
      (∀ i, idx ≤ i → st.leg_geo_task.lookup i = none) →
      (∀ i, i < idx → st.leg_weather_task.lookup i = some (weatherId i)) →
      (∀ i, i < idx → st.leg_poi_task.lookup i = some (poiId i)) →
      (processLegs st idx legs).tasks = st.tasks ++ planBlocks idx legs ∧
      (processLegs st idx legs).transport_task_ids =
        st.transport_task_ids ++ transportIdsFrom idx legs ∧
      (∀ i, i < idx + legs.length →
        (processLegs st idx legs).leg_weather_task.lookup i =
          some (weatherId i)) ∧
      (∀ i, i < idx + legs.length →
        (processLegs st idx legs).leg_poi_task.lookup i = some (poiId i)) := by
  intro legs
  induction legs with
  | nil =>
    intro idx st hgeo hw hp
    refine ⟨by simp [processLegs, planBlocks], by simp [processLegs, transportIdsFrom], ?_, ?_⟩
    · intro i hi
      simp only [List.length_nil, Nat.add_zero] at hi
      exact hw i hi
    · intro i hi
      simp only [List.length_nil, Nat.add_zero] at hi
      exact hp i hi
  | cons leg rest ih =>
    intro idx st hgeo hw hp
    have heq := processLeg_eq st idx leg (hgeo idx le_rfl)
      (fun h => hw (idx - 1) (by omega)) (fun h => hp (idx - 1) (by omega))
    have hgeo1 : ∀ i, idx + 1 ≤ i →
        (processLeg st idx leg).leg_geo_task.lookup i = none := by
      intro i hi
      rw [heq]
      by_cases hg : leg.geo.isNone
      · simp only [hg, if_true, List.singleton_append]
        rw [lookup_cons_ne _ _ (by omega)]
        exact hgeo i (by omega)
      · simp only [hg, if_false, List.nil_append]
        exact hgeo i (by omega)
    have hw1 : ∀ i, i < idx + 1 →
        (processLeg st idx leg).leg_weather_task.lookup i = some (weatherId i) := by
      intro i hi
      rw [heq]
      by_cases hik : i = idx
      · subst hik
        simp [List.lookup_cons]
      · rw [lookup_cons_ne _ _ hik]
        exact hw i (by omega)
    have hp1 : ∀ i, i < idx + 1 →
        (processLeg st idx leg).leg_poi_task.lookup i = some (poiId i) := by
      intro i hi
      rw [heq]
      by_cases hik : i = idx
      · subst hik
        simp [List.lookup_cons]
      · rw [lookup_cons_ne _ _ hik]
        exact hp i (by omega)
    obtain ⟨ht, htr, hwr, hpr⟩ := ih (idx + 1) (processLeg st idx leg) hgeo1 hw1 hp1
    have hshow : processLegs st idx (leg :: rest) =
        processLegs (processLeg st idx leg) (idx + 1) rest := rfl
    refine ⟨?_, ?_, ?_, ?_⟩
    · rw [hshow, ht, heq]
      simp [planBlocks, List.append_assoc]
    · rw [hshow, htr, heq]
      simp [transportIdsFrom, List.append_assoc]
    · intro i hi
      rw [hshow]
      exact hwr i (by simp only [List.length_cons] at hi; omega)
    · intro i hi
      rw [hshow]
      exact hpr i (by simp only [List.length_cons] at hi; omega)

theorem foldl_append_flatten {α β : Type} (f : α → List β) :
    ∀ (l : List α) (acc : List β),
      l.foldl (fun a x => a ++ f x) acc = acc ++ (l.map f).flatten := by
  intro l
  induction l with
  | nil => intro acc; simp
  | cons x xs ih =>
    intro acc
    simp only [List.foldl_cons, List.map_cons, List.flatten_cons]
    rw [ih]
    simp [List.append_assoc]

theorem generate_char (ts : TripSpec) :
    generate ts = Plan.mk (planBlocks 0 ts.legs ++
      [synthTask (wpDeps ts.legs.length ++ transportIdsFrom 0 ts.legs)]) := by
  obtain ⟨ht, htr, hwr, hpr⟩ := processLegs_char ts.legs 0 ⟨[], [], [], [], []⟩
    (by intro i _; rfl) (by intro i hi; omega) (by intro i hi; omega)
  rw [generate]
  simp only [ht, htr, List.nil_append]
  have hfold := foldl_append_flatten
    (fun i => [dictGet (processLegs ⟨[], [], [], [], []⟩ 0 ts.legs).leg_weather_task i,
               dictGet (processLegs ⟨[], [], [], [], []⟩ 0 ts.legs).leg_poi_task i])
    (List.range ts.legs.length) []
  simp only [List.nil_append] at hfold
  rw [hfold]
  have hmap : (List.range ts.legs.length).map
      (fun i => [dictGet (processLegs ⟨[], [], [], [], []⟩ 0 ts.legs).leg_weather_task i,
                 dictGet (processLegs ⟨[], [], [], [], []⟩ 0 ts.legs).leg_poi_task i]) =
      (List.range ts.legs.length).map (fun i => [weatherId i, poiId i]) := by
    apply List.map_congr_left
    intro i hi
    have hin : i < ts.legs.length := List.mem_range.1 hi
    rw [dictGet, dictGet, hwr i (by omega), hpr i (by omega)]
    rfl
  rw [hmap]
  rfl

theorem famNe (i j : Nat) :
    geoId i ≠ transportId j ∧ geoId i ≠ weatherId j ∧ geoId i ≠ poiId j ∧
    geoId i ≠ "synth_trip" ∧ transportId i ≠ weatherId j ∧
    transportId i ≠ poiId j ∧ transportId i ≠ "synth_trip" ∧
    weatherId i ≠ poiId j ∧ weatherId i ≠ "synth_trip" ∧
    poiId i ≠ "synth_trip" :=
  ⟨str_ne_of_head (geoId_head i) (transportId_head j) (by decide),
   str_ne_of_head (geoId_head i) (weatherId_head j) (by decide),
   str_ne_of_head (geoId_head i) (poiId_head j) (by decide),
   str_ne_of_head (geoId_head i) synthId_head (by decide),
   str_ne_of_head (transportId_head i) (weatherId_head j) (by decide),
   str_ne_of_head (transportId_head i) (poiId_head j) (by decide),
   str_ne_of_head (transportId_head i) synthId_head (by decide),
   str_ne_of_head (weatherId_head i) (poiId_head j) (by decide),
   str_ne_of_head (weatherId_head i) synthId_head (by decide),
   str_ne_of_head (poiId_head i) synthId_head (by decide)⟩

theorem blockFor_id_shapes {idx : Nat} {g : Bool} {t : PlanTask}
    (h : t ∈ blockFor idx g) :
    t.task_id = geoId idx ∨ (0 < idx ∧ t.task_id = transportId idx) ∨
    t.task_id = weatherId idx ∨ t.task_id = poiId idx := by
  rw [blockFor] at h
  simp only [List.mem_append, List.mem_cons, List.mem_singleton] at h
  rcases h with (h | h) | h
  · by_cases hg : g
    · simp only [hg, if_true, List.mem_singleton] at h
      subst h
      left
      rfl
    · simp [hg] at h
  · by_cases hi : 0 < idx
    · simp only [hi, if_true, List.mem_singleton] at h
      subst h
      right; left
      exact ⟨hi, rfl⟩
    · simp [hi] at h
  · rcases h with h | h
    · subst h
      right; right; left
      rfl
    · simp only [List.not_mem_nil, or_false] at h
      subst h
      right; right; right
      rfl

theorem blockFor_agents {idx : Nat} {g : Bool} {t : PlanTask}
    (h : t ∈ blockFor idx g) :
    t.agent = .geo ∨ t.agent = .transport ∨ t.agent = .weather ∨
    t.agent = .poi := by
  rw [blockFor] at h
  simp only [List.mem_append, List.mem_cons, List.mem_singleton] at h
  rcases h with (h | h) | h
  · by_cases hg : g
    · simp only [hg, if_true, List.mem_singleton] at h
      subst h
      left; rfl
    · simp [hg] at h
  · by_cases hi : 0 < idx
    · simp only [hi, if_true, List.mem_singleton] at h
      subst h
      right; left; rfl
    · simp [hi] at h
  · rcases h with h | h
    · subst h
      right; right; left; rfl
    · simp only [List.not_mem_nil, or_false] at h
      subst h
      right; right; right; rfl

theorem planBlocks_id_shapes :
    ∀ {legs : List TripLeg} {idx : Nat} {t : PlanTask},
      t ∈ planBlocks idx legs →
      ∃ i, idx ≤ i ∧ i < idx + legs.length ∧
        (t.task_id = geoId i ∨ (0 < i ∧ t.task_id = transportId i) ∨
         t.task_id = weatherId i ∨ t.task_id = poiId i) := by
  intro legs
  induction legs with
  | nil => intro idx t h; simp [planBlocks] at h
  | cons leg rest ih =>
    intro idx t h
    rw [planBlocks] at h
    rcases List.mem_append.1 h with h | h
    · exact ⟨idx, le_rfl, by simp, blockFor_id_shapes h⟩
    · obtain ⟨i, hi1, hi2, hsh⟩ := ih h
      exact ⟨i, by omega, by simp only [List.length_cons]; omega, hsh⟩

theorem planBlocks_agents :
    ∀ {legs : List TripLeg} {idx : Nat} {t : PlanTask},
      t ∈ planBlocks idx legs →
      t.agent = .geo ∨ t.agent = .transport ∨ t.agent = .weather ∨
      t.agent = .poi := by
  intro legs
  induction legs with
  | nil => intro idx t h; simp [planBlocks] at h
  | cons leg rest ih =>
    intro idx t h
    rw [planBlocks] at h
    rcases List.mem_append.1 h with h | h
    · exact blockFor_agents h
    · exact ih h

theorem shape_ne {i j : Nat} (hij : ¬ i = j) {a b : String}
    (ha : a = geoId i ∨ (0 < i ∧ a = transportId i) ∨ a = weatherId i ∨
      a = poiId i)
    (hb : b = geoId j ∨ (0 < j ∧ b = transportId j) ∨ b = weatherId j ∨
      b = poiId j) :
    a ≠ b := by
  rcases ha with rfl | ⟨_, rfl⟩ | rfl | rfl <;>
    rcases hb with rfl | ⟨_, rfl⟩ | rfl | rfl
  · exact fun h => hij (geoId_inj h)
  · exact (famNe i j).1
  · exact (famNe i j).2.1
  · exact (famNe i j).2.2.1
  · exact fun h => ((famNe j i).1 h.symm)
  · exact fun h => hij (transportId_inj h)
  · exact (famNe i j).2.2.2.2.1
  · exact (famNe i j).2.2.2.2.2.1
  · exact fun h => ((famNe j i).2.1 h.symm)
  · exact fun h => ((famNe j i).2.2.2.2.1 h.symm)
  · exact fun h => hij (weatherId_inj h)
  · exact (famNe i j).2.2.2.2.2.2.2.1
  · exact fun h => ((famNe j i).2.2.1 h.symm)
  · exact fun h => ((famNe j i).2.2.2.2.2.1 h.symm)
  · exact fun h => ((famNe j i).2.2.2.2.2.2.2.1 h.symm)
  · exact fun h => hij (poiId_inj h)

theorem blockFor_ids_map (idx : Nat) (g : Bool) :
    (blockFor idx g).map PlanTask.task_id =
      (if g then [geoId idx] else []) ++
      (if 0 < idx then [transportId idx] else []) ++
      [weatherId idx, poiId idx] := by
  cases g <;> by_cases hi : 0 < idx <;>
    simp [blockFor, hi, geoTaskAt, transportTaskAt, weatherTaskAt, poiTaskAt]

theorem blockFor_ids_nodup (idx : Nat) (g : Bool) :
    ((blockFor idx g).map PlanTask.task_id).Nodup := by
  have hf := famNe idx idx
  rw [blockFor_ids_map]
  cases g <;> by_cases hi : 0 < idx <;>
    simp only [hi, if_true, if_false, Bool.false_eq_true, List.nil_append,
      List.singleton_append, List.cons_append, List.nodup_cons,
      List.mem_cons, List.mem_singleton, List.not_mem_nil, List.nodup_nil,
      and_true, not_or, not_false_iff] <;>
    repeat' apply And.intro
  all_goals
    first
      | trivial
      | exact hf.1
      | exact hf.2.1
      | exact hf.2.2.1
      | exact hf.2.2.2.2.1
      | exact hf.2.2.2.2.2.1
      | exact hf.2.2.2.2.2.2.2.1

theorem blockFor_mem_ids {idx : Nat} {g : Bool} {x : String}
    (h : x ∈ (blockFor idx g).map PlanTask.task_id) :
    x = geoId idx ∨ (0 < idx ∧ x = transportId idx) ∨ x = weatherId idx ∨
    x = poiId idx := by
  obtain ⟨t, ht, hx⟩ := List.mem_map.1 h
  subst hx
  exact blockFor_id_shapes ht

theorem planBlocks_mem_ids :
    ∀ {legs : List TripLeg} {idx : Nat} {x : String},
      x ∈ (planBlocks idx legs).map PlanTask.task_id →
      ∃ i, idx ≤ i ∧
        (x = geoId i ∨ (0 < i ∧ x = transportId i) ∨ x = weatherId i ∨
         x = poiId i) := by
  intro legs idx x h
  obtain ⟨t, ht, hx⟩ := List.mem_map.1 h
  subst hx
  obtain ⟨i, hi1, _, hsh⟩ := planBlocks_id_shapes ht
  exact ⟨i, hi1, hsh⟩

theorem planBlocks_ids_nodup :
    ∀ (legs : List TripLeg) (idx : Nat),
      ((planBlocks idx legs).map PlanTask.task_id).Nodup := by
  intro legs
  induction legs with
  | nil => intro idx; simp [planBlocks]
  | cons leg rest ih =>
    intro idx
    rw [planBlocks, List.map_append]
    refine List.Nodup.append (blockFor_ids_nodup idx leg.geo.isNone) (ih (idx + 1)) ?_
    intro x hx hy
    have hsx := blockFor_mem_ids hx
    obtain ⟨i, hi1, hsy⟩ := planBlocks_mem_ids hy
    exact shape_ne (by omega) hsx hsy rfl

theorem generate_ids_nodup (ts : TripSpec) :
    (((generate ts).tasks).map PlanTask.task_id).Nodup := by
  rw [generate_char]
  simp only [List.map_append, List.map_cons, List.map_nil]
  refine List.Nodup.append (planBlocks_ids_nodup ts.legs 0) (by simp) ?_
  intro x hx hy
  have hsx := planBlocks_mem_ids hx
  obtain ⟨i, _, hsh⟩ := hsx
  have hxe : x = "synth_trip" := by
    simpa [synthTask] using hy
  subst hxe
  have hf := famNe i i
  rcases hsh with h | ⟨_, h⟩ | h | h
  · exact hf.2.2.2.1 h.symm
  · exact hf.2.2.2.2.2.2.1 h.symm
  · exact hf.2.2.2.2.2.2.2.2.1 h.symm
  · exact hf.2.2.2.2.2.2.2.2.2 h.symm

theorem refsEarlier_append :
    ∀ (xs ys : List PlanTask) (seen : List String),
      refsEarlier seen (xs ++ ys) ↔
        refsEarlier seen xs ∧
          refsEarlier (seen ++ xs.map PlanTask.task_id) ys := by
  intro xs
  induction xs with
  | nil => intro ys seen; simp [refsEarlier]
  | cons x xs ih =>
    intro ys seen
    simp only [List.cons_append, refsEarlier, List.map_cons]
    have hxy : xs.append ys = xs ++ ys := rfl
    rw [hxy, ih ys (seen ++ [x.task_id])]
    rw [List.append_assoc, List.singleton_append, and_assoc]

theorem blockFor_refs (idx : Nat) (g : Bool) (seen : List String)
    (hw : 0 < idx → weatherId (idx - 1) ∈ seen)
    (hp : 0 < idx → poiId (idx - 1) ∈ seen) :
    refsEarlier seen (blockFor idx g) := by
  cases g <;> by_cases hi : 0 < idx <;>
    simp_all [blockFor, refsEarlier, geoTaskAt, transportTaskAt,
      weatherTaskAt, poiTaskAt, List.mem_append]

theorem planBlocks_refs :
    ∀ (legs : List TripLeg) (idx : Nat) (seen : List String),
      (∀ i, i < idx → weatherId i ∈ seen ∧ poiId i ∈ seen) →
      refsEarlier seen (planBlocks idx legs) := by
  intro legs
  induction legs with
  | nil => intro idx seen _; trivial
  | cons leg rest ih =>
    intro idx seen hinv
    rw [planBlocks, refsEarlier_append]
    refine ⟨blockFor_refs idx leg.geo.isNone seen
      (fun hi => (hinv (idx - 1) (by omega)).1)
      (fun hi => (hinv (idx - 1) (by omega)).2), ?_⟩
    apply ih (idx + 1)
    intro i hi
    by_cases hik : i = idx
    · subst hik
      constructor
      · refine List.mem_append_right _ ?_
        rw [blockFor_ids_map]
        simp
      · refine List.mem_append_right _ ?_
        rw [blockFor_ids_map]
        simp
    · have hlt : i < idx := by omega
      exact ⟨List.mem_append_left _ (hinv i hlt).1,
        List.mem_append_left _ (hinv i hlt).2⟩

theorem planBlocks_ids_contain :
    ∀ (legs : List TripLeg) (idx i : Nat), idx ≤ i → i < idx + legs.length →
      weatherId i ∈ (planBlocks idx legs).map PlanTask.task_id ∧
      poiId i ∈ (planBlocks idx legs).map PlanTask.task_id ∧
      (0 < i → transportId i ∈ (planBlocks idx legs).map PlanTask.task_id) := by
  intro legs
  induction legs with
  | nil => intro idx i h1 h2; simp at h2; omega
  | cons leg rest ih =>
    intro idx i h1 h2
    rw [planBlocks, List.map_append]
    by_cases hik : i = idx
    · subst hik
      refine ⟨?_, ?_, ?_⟩
      · apply List.mem_append_left
        rw [blockFor_ids_map]
        simp
      · apply List.mem_append_left
        rw [blockFor_ids_map]
        simp
      · intro hpos
        apply List.mem_append_left
        rw [blockFor_ids_map]
        simp [hpos]
    · have hrec := ih (idx + 1) i (by omega)
        (by simp only [List.length_cons] at h2; omega)
      exact ⟨List.mem_append_right _ hrec.1, List.mem_append_right _ hrec.2.1,
        fun hpos => List.mem_append_right _ (hrec.2.2 hpos)⟩

theorem wpDeps_mem_rev {n : Nat} {d : String} (h : d ∈ wpDeps n) :
    ∃ i, i < n ∧ (d = weatherId i ∨ d = poiId i) := by
  rw [wpDeps] at h
  obtain ⟨l, hl, hd⟩ := List.mem_flatten.1 h
  obtain ⟨i, hi, hli⟩ := List.mem_map.1 hl
  subst hli
  simp only [List.mem_cons, List.mem_singleton] at hd
  rcases hd with hd | hd | hd
  · exact ⟨i, List.mem_range.1 hi, Or.inl hd⟩
  · exact ⟨i, List.mem_range.1 hi, Or.inr hd⟩
  · simp at hd

theorem wpDeps_mem_fwd {n i : Nat} (h : i < n) :
    weatherId i ∈ wpDeps n ∧ poiId i ∈ wpDeps n := by
  constructor <;>
    · rw [wpDeps]
      refine List.mem_flatten.2 ⟨[weatherId i, poiId i], ?_, by simp⟩
      exact List.mem_map.2 ⟨i, List.mem_range.2 h, rfl⟩

theorem transportIdsFrom_mem_rev :
    ∀ (legs : List TripLeg) (idx : Nat) (d : String),
      d ∈ transportIdsFrom idx legs →
      ∃ i, idx ≤ i ∧ i < idx + legs.length ∧ 0 < i ∧ d = transportId i := by
  intro legs
  induction legs with
  | nil => intro idx d h; simp [transportIdsFrom] at h
  | cons leg rest ih =>
    intro idx d h
    rw [transportIdsFrom] at h
    rcases List.mem_append.1 h with h | h
    · by_cases hi : 0 < idx
      · simp only [hi, if_true, List.mem_singleton] at h
        exact ⟨idx, le_rfl, by simp, hi, h⟩
      · simp [hi] at h
    · obtain ⟨i, h1, h2, h3, h4⟩ := ih (idx + 1) d h
      exact ⟨i, by omega, by simp only [List.length_cons]; omega, h3, h4⟩

theorem transportIdsFrom_mem_fwd :
    ∀ (legs : List TripLeg) (idx i : Nat), idx ≤ i → i < idx + legs.length →
      0 < i → transportId i ∈ transportIdsFrom idx legs := by
  intro legs
  induction legs with
  | nil => intro idx i h1 h2; simp at h2; omega
  | cons leg rest ih =>
    intro idx i h1 h2 h3
    rw [transportIdsFrom]
    by_cases hik : i = idx
    · subst hik
      exact List.mem_append_left _ (by simp [h3])
    · exact List.mem_append_right _ (ih (idx + 1) i (by omega)
        (by simp only [List.length_cons] at h2; omega) h3)

theorem generate_refsEarlier (ts : TripSpec) :
    refsEarlier [] (generate ts).tasks := by
  rw [generate_char]
  rw [refsEarlier_append]
  refine ⟨planBlocks_refs ts.legs 0 [] (by intro i hi; omega), ?_⟩
  simp only [List.nil_append]
  rw [refsEarlier]
  refine ⟨?_, trivial⟩
  intro d hd
  rw [synthTask] at hd
  simp only at hd
  rcases List.mem_append.1 hd with hd | hd
  · obtain ⟨i, hin, hdi⟩ := wpDeps_mem_rev hd
    have hc := planBlocks_ids_contain ts.legs 0 i (by omega) (by omega)
    rcases hdi with rfl | rfl
    · exact hc.1
    · exact hc.2.1
  · obtain ⟨i, h1, h2, h3, rfl⟩ := transportIdsFrom_mem_rev ts.legs 0 d hd
    exact (planBlocks_ids_contain ts.legs 0 i (by omega) (by omega)).2.2 h3

theorem blockFor_mem_char {idx : Nat} {g : Bool} {t : PlanTask}
    (h : t ∈ blockFor idx g) :
    (g = true ∧ t = geoTaskAt idx) ∨ (0 < idx ∧ t = transportTaskAt idx g) ∨
    t = weatherTaskAt idx g ∨ t = poiTaskAt idx g := by
  rw [blockFor] at h
  simp only [List.mem_append, List.mem_cons, List.mem_singleton] at h
  rcases h with (h | h) | h
  · by_cases hg : g
    · simp only [hg, if_true, List.mem_singleton] at h
      exact Or.inl ⟨by simpa using hg, h⟩
    · simp [hg] at h
  · by_cases hi : 0 < idx
    · simp only [hi, if_true, List.mem_singleton] at h
      exact Or.inr (Or.inl ⟨hi, h⟩)
    · simp [hi] at h
  · rcases h with h | h
    · exact Or.inr (Or.inr (Or.inl h))
    · simp only [List.not_mem_nil, or_false] at h
      exact Or.inr (Or.inr (Or.inr h))

theorem planBlocks_mem_char :
    ∀ {legs : List TripLeg} {idx : Nat} {t : PlanTask},
      t ∈ planBlocks idx legs →
      ∃ i, ∃ hi : i < legs.length,
        ((legs.get ⟨i, hi⟩).geo.isNone = true ∧ t = geoTaskAt (idx + i)) ∨
        (0 < idx + i ∧
          t = transportTaskAt (idx + i) (legs.get ⟨i, hi⟩).geo.isNone) ∨
        t = weatherTaskAt (idx + i) (legs.get ⟨i, hi⟩).geo.isNone ∨
        t = poiTaskAt (idx + i) (legs.get ⟨i, hi⟩).geo.isNone := by
  intro legs
  induction legs with
  | nil => intro idx t h; simp [planBlocks] at h
  | cons leg rest ih =>
    intro idx t h
    rw [planBlocks] at h
    rcases List.mem_append.1 h with h | h
    · refine ⟨0, by simp, ?_⟩
      simpa using blockFor_mem_char h
    · obtain ⟨i, hi, hsh⟩ := ih h
      refine ⟨i + 1, by simpa using hi, ?_⟩
      have hadd : idx + 1 + i = idx + (i + 1) := by omega
      have hget : (leg :: rest).get ⟨i + 1, by simpa using hi⟩ =
          rest.get ⟨i, hi⟩ := rfl
      rw [hget, ← hadd]
      exact hsh

theorem planBlocks_deps_shapes {legs : List TripLeg} {idx : Nat} {t : PlanTask}
    (h : t ∈ planBlocks idx legs) :
    ∀ d ∈ t.depends_on, ∃ k, d = geoId k ∨ d = weatherId k ∨ d = poiId k := by
  obtain ⟨i, hi, hsh⟩ := planBlocks_mem_char h
  intro d hd
  rcases hsh with ⟨_, rfl⟩ | ⟨_, rfl⟩ | rfl | rfl
  · simp [geoTaskAt] at hd
  · rw [transportTaskAt] at hd
    simp only [List.mem_append, List.mem_cons, List.mem_singleton] at hd
    rcases hd with (hd | hd | hd) | hd
    · exact ⟨idx + i - 1, Or.inr (Or.inl hd)⟩
    · exact ⟨idx + i - 1, Or.inr (Or.inr hd)⟩
    · simp at hd
    · split at hd
      · simp only [List.mem_singleton] at hd
        exact ⟨idx + i, Or.inl hd⟩
      · simp at hd
  · rw [weatherTaskAt] at hd
    simp only at hd
    split at hd
    · simp only [List.mem_singleton] at hd
      exact ⟨idx + i, Or.inl hd⟩
    · simp at hd
  · rw [poiTaskAt] at hd
    simp only at hd
    split at hd
    · simp only [List.mem_singleton] at hd
      exact ⟨idx + i, Or.inl hd⟩
    · simp at hd

/-- C5: for every valid `TripSpec` (at least one leg), the generated plan
contains exactly one task with agent `synth`, no task of the plan lists the
synth task among its dependencies, and the synth task's `depends_on` contains
the task id of every weather, poi and transport task of the plan. -/
theorem C5_synth_terminal (ts : TripSpec) (_hv : ts.valid) :
    ((generate ts).tasks.filter (fun t => t.agent = Agent.synth)).length = 1 ∧
    (∀ s ∈ (generate ts).tasks, s.agent = Agent.synth →
      (∀ t ∈ (generate ts).tasks, s.task_id ∉ t.depends_on) ∧
      (∀ t ∈ (generate ts).tasks,
        (t.agent = Agent.weather ∨ t.agent = Agent.poi ∨
          t.agent = Agent.transport) →
        t.task_id ∈ s.depends_on)) := by
  rw [generate_char]
  constructor
  · simp only [List.filter_append]
    have hblocks : (planBlocks 0 ts.legs).filter
        (fun t => t.agent = Agent.synth) = [] := by
      rw [List.filter_eq_nil_iff]
      intro t ht
      rcases planBlocks_agents ht with ha | ha | ha | ha <;> simp [ha]
    rw [hblocks]
    simp [synthTask]
  · intro s hs hsyn
    have hseq : s = synthTask (wpDeps ts.legs.length ++ transportIdsFrom 0 ts.legs) := by
      simp only [List.mem_append, List.mem_singleton] at hs
      rcases hs with hs | hs
      · rcases planBlocks_agents hs with ha | ha | ha | ha <;>
          rw [ha] at hsyn <;> cases hsyn
      · exact hs
    subst hseq
    constructor
    · intro t ht
      simp only [List.mem_append, List.mem_singleton] at ht
      have hid : (synthTask (wpDeps ts.legs.length ++
          transportIdsFrom 0 ts.legs)).task_id = "synth_trip" := rfl
      rw [hid]
      rcases ht with ht | ht
      · intro hmem
        obtain ⟨k, hk⟩ := planBlocks_deps_shapes ht _ hmem
        have hf := famNe k k
        rcases hk with hk | hk | hk
        · exact hf.2.2.2.1 hk.symm
        · exact hf.2.2.2.2.2.2.2.2.1 hk.symm
        · exact hf.2.2.2.2.2.2.2.2.2 hk.symm
      · subst ht
        intro hmem
        rw [synthTask] at hmem
        simp only [List.mem_append] at hmem
        rcases hmem with hmem | hmem
        · obtain ⟨i, _, hd⟩ := wpDeps_mem_rev hmem
          have hf := famNe i i
          rcases hd with hd | hd
          · exact hf.2.2.2.2.2.2.2.2.1 hd.symm
          · exact hf.2.2.2.2.2.2.2.2.2 hd.symm
        · obtain ⟨i, _, _, _, hd⟩ := transportIdsFrom_mem_rev _ _ _ hmem
          exact (famNe i i).2.2.2.2.2.2.1 hd.symm
    · intro t ht hag
      simp only [List.mem_append, List.mem_singleton] at ht
      rcases ht with ht | ht
      · obtain ⟨i, hi, hsh⟩ := planBlocks_mem_char ht
        rw [synthTask]
        simp only [List.mem_append]
        rcases hsh with ⟨_, rfl⟩ | ⟨hpos, rfl⟩ | rfl | rfl
        · rcases hag with hag | hag | hag <;> cases hag
        · right
          exact transportIdsFrom_mem_fwd ts.legs 0 (0 + i) (by omega)
            (by omega) hpos
        · left
          exact (wpDeps_mem_fwd (by omega : 0 + i < ts.legs.length)).1
        · left
          exact (wpDeps_mem_fwd (by omega : 0 + i < ts.legs.length)).2
      · subst ht
        rcases hag with hag | hag | hag <;> cases hag

/-- Witness for C5 at a concrete one-leg trip spec. -/
theorem C5_synth_terminal_witness :
    ((generate ⟨[legA]⟩).tasks.filter
      (fun t => t.agent = Agent.synth)).length = 1 :=
  (C5_synth_terminal ⟨[legA]⟩ (by simp [TripSpec.valid])).1

/-- C6: `generate` is total on valid trip specs and always well formed: the
task sequence is non-empty, the task ids are pairwise distinct, every task's
`depends_on` references only task ids of tasks that appear earlier in the
plan's ordered sequence (`refsEarlier`), and every transport task bridges
legs i-1 and i, depending exactly on leg i-1's weather task, leg i-1's poi
task, and leg i's geo task when leg i lacks a pre-resolved geo point. -/
theorem C6_plan_well_formed (ts : TripSpec) (_hv : ts.valid) :
    (generate ts).tasks ≠ [] ∧
    ((generate ts).tasks.map PlanTask.task_id).Nodup ∧
    refsEarlier [] (generate ts).tasks ∧
    (∀ t ∈ (generate ts).tasks, t.agent = Agent.transport →
      ∃ i, ∃ hi : i < ts.legs.length, 0 < i ∧
        t.task_id = transportId i ∧
        t.depends_on = [weatherId (i - 1), poiId (i - 1)] ++
          (if (ts.legs.get ⟨i, hi⟩).geo.isNone then [geoId i] else [])) := by
  refine ⟨?_, generate_ids_nodup ts, generate_refsEarlier ts, ?_⟩
  · rw [generate_char]
    simp
  · intro t ht hag
    rw [generate_char] at ht
    simp only [List.mem_append, List.mem_singleton] at ht
    rcases ht with ht | ht
    · obtain ⟨i, hi, hsh⟩ := planBlocks_mem_char ht
      rcases hsh with ⟨_, rfl⟩ | ⟨hpos, rfl⟩ | rfl | rfl
      · cases hag
      · refine ⟨i, hi, by omega, ?_, ?_⟩
        · simp only [transportTaskAt]
          rw [Nat.zero_add]
        · simp only [transportTaskAt]
          rw [Nat.zero_add]
      · cases hag
      · cases hag
    · subst ht
      cases hag

/-- Witness for C6 at a concrete two-leg trip spec. -/
theorem C6_plan_well_formed_witness :
    (generate ⟨[legA, legA]⟩).tasks ≠ [] ∧
    ((generate ⟨[legA, legA]⟩).tasks.map PlanTask.task_id).Nodup :=
  ⟨(C6_plan_well_formed ⟨[legA, legA]⟩ (by simp [TripSpec.valid])).1,
   (C6_plan_well_formed ⟨[legA, legA]⟩ (by simp [TripSpec.valid])).2.1⟩

end TripPlanner
